import Mathlib

/-! UnknownIR: type uniquing, integer constants and the use-def protocol.

A shallow embedding of the core of the UnknownIR library
(`UnknownIR.Type.cpp`, `UnknownIR.Value.cpp`, `UnknownIR.Constant.cpp`).

Conventions of the embedding

* Objects are identified by references: a type object owned by a context is a
  `TypeRef`, a value object is a `ValueRef`.  Pointer equality of the C++ code is
  equality of references.
* Code that mutates state is written in state-passing style: a function takes
  the state it reads and returns the state it leaves behind.
* A call that does not return normally yields `Except.error` with a `Fatal`.
* `uint32_t` and `uint64_t` quantities are natural numbers; a narrowing cast is
  written as an explicit remainder.
-/

namespace uir

/-! ## Abnormal termination -/

/-- Reasons for which a call does not return normally. -/
inductive Fatal where
  /-- The call reached `uir_unreachable(msg)`. -/
  | unreachable (msg : String)
  /-- A null or dangling pointer was dereferenced. -/
  | nullDeref
  /-- An iterator was used after the element it designates had been erased. -/
  | invalidIterator
  /-- The step budget of a loop of the embedding was exhausted. -/
  | outOfFuel
  deriving DecidableEq, Repr

/-- Modelled from the spec: the macro `uir_unreachable` lives in
`Internal/InternalErrors/InternalErrors.h`, which is not among the sources.  The
specification describes it as a fatal unreachable/abort path, so reaching it ends
the call with `Fatal.unreachable`. -/
def uir_unreachable {α : Type} (msg : String) : Except Fatal α :=
  .error (.unreachable msg)

/-! ## Types (`Type.h`, `UnknownIR.Type.cpp`) -/

/-- The enumeration `Type::TypeID`. -/
inductive TypeID where
  | VoidTyID
  | FloatTyID
  | DoubleTyID
  | LabelTyID
  | IntegerTyID
  | FunctionTyID
  | ArrayTyID
  | PointerTyID
  deriving DecidableEq, Repr

/-- Identity of a type object of one context.  The first eleven constructors are
the addresses of the member objects `mImpl->mVoidTy`, ..., `mImpl->mInt128Ty`
(distinct members have distinct addresses); `allocated n` is the object produced
by the `n`-th `new` expression evaluated for the context (objects are never
freed, so distinct allocations have distinct addresses, all different from the
members). -/
inductive TypeRef where
  | mVoidTy
  | mFloatTy
  | mDoubleTy
  | mLabelTy
  | mFunctionTy
  | mInt1Ty
  | mInt8Ty
  | mInt16Ty
  | mInt32Ty
  | mInt64Ty
  | mInt128Ty
  | allocated (n : Nat)
  deriving DecidableEq, Repr

/-- The data members of a `Type` object (class `Type`; `mElementType` is the
extra member of `PointerType` and is `none` on every other object).  The member
`mContext` is implicit: an object is always read through the context that owns
it. -/
structure IRType where
  mTypeName : String
  mTypeID : TypeID
  mTypeSizeInBits : Nat
  mElementType : Option TypeRef
  deriving DecidableEq, Repr

namespace IRType

/-- The constructor `Type::Type(C, TypeName, TypeID, TypeSizeInBits)`. -/
def ctor (TypeName : String) (id : TypeID) (TypeSizeInBits : Nat) : IRType :=
  { mTypeName := TypeName, mTypeID := id, mTypeSizeInBits := TypeSizeInBits,
    mElementType := none }

/-- The getter `Type::getTypeName`. -/
def getTypeName (T : IRType) : String := T.mTypeName

/-- The getter `Type::getTypeID`. -/
def getTypeID (T : IRType) : TypeID := T.mTypeID

/-- The getter `Type::getTypeBits`. -/
def getTypeBits (T : IRType) : Nat := T.mTypeSizeInBits

/-- The getter `Type::getTypeSize`: `mTypeSizeInBits / 8`. -/
def getTypeSize (T : IRType) : Nat := T.mTypeSizeInBits / 8

/-- The predicate `Type::isVoidTy`. -/
def isVoidTy (T : IRType) : Bool := T.getTypeID == TypeID.VoidTyID

/-- The predicate `Type::isFloatTy`. -/
def isFloatTy (T : IRType) : Bool := T.getTypeID == TypeID.FloatTyID

/-- The predicate `Type::isDoubleTy`. -/
def isDoubleTy (T : IRType) : Bool := T.getTypeID == TypeID.DoubleTyID

/-- The predicate `Type::isLabelTy`. -/
def isLabelTy (T : IRType) : Bool := T.getTypeID == TypeID.LabelTyID

/-- The predicate `Type::isIntegerTy`. -/
def isIntegerTy (T : IRType) : Bool := T.getTypeID == TypeID.IntegerTyID

/-- The predicate `Type::isFunctionTy`. -/
def isFunctionTy (T : IRType) : Bool := T.getTypeID == TypeID.FunctionTyID

/-- The predicate `Type::isArrayTy`. -/
def isArrayTy (T : IRType) : Bool := T.getTypeID == TypeID.ArrayTyID

/-- The predicate `Type::isPointerTy`. -/
def isPointerTy (T : IRType) : Bool := T.getTypeID == TypeID.PointerTyID

end IRType

/-- The constructor `IntegerType::IntegerType(C, TypeName, TypeSizeInBits)`:
it forwards to `Type` with `Type::IntegerTyID`. -/
def IntegerType.ctor (TypeName : String) (TypeSizeInBits : Nat) : IRType :=
  IRType.ctor TypeName TypeID.IntegerTyID TypeSizeInBits

/-! ## Contexts -/

/-- The pointer-width mode of a context (`Context::Mode32`, `Context::Mode64`). -/
inductive Mode where
  | Mode32
  | Mode64
  deriving DecidableEq, Repr

/-- Modelled from the spec: the class `ContextImpl` (`ContextImpl/ContextImpl.h`)
is not among the sources; its members are the ones the code under `src/` names.
It holds the singleton instance of every primitive type, a table from bit-width
to `IntegerType*` (`mIntegerTypes`, indexed with `operator[]` like a `std::map`;
a null mapped pointer is `none`), a table from element type to `PointerType*`,
and, for the embedding, the objects created by `new` for this context. -/
structure ContextImpl where
  mVoidTy : IRType
  mFloatTy : IRType
  mDoubleTy : IRType
  mLabelTy : IRType
  mFunctionTy : IRType
  mInt1Ty : IRType
  mInt8Ty : IRType
  mInt16Ty : IRType
  mInt32Ty : IRType
  mInt64Ty : IRType
  mInt128Ty : IRType
  mIntegerTypes : List (Nat × Option TypeRef)
  mPointerTypes : List (TypeRef × TypeRef)
  allocated : List IRType
  deriving DecidableEq, Repr

/-- Modelled from the spec: the class `Context` (`Context.h`) is not among the
sources.  It carries the pointer-width mode and the hidden implementation
`mImpl`. -/
structure Context where
  mMode : Mode
  mImpl : ContextImpl
  deriving DecidableEq, Repr

namespace Context

/-- Modelled from the spec: `Context::getMode` is not among the sources; it reads
the mode the context was configured with. -/
def getMode (C : Context) : Mode := C.mMode

/-- Modelled from the spec: `Context::getModeBits` is not among the sources; the
specification calls it the context's configured pointer width, 32 or 64. -/
def getModeBits (C : Context) : Nat :=
  match C.mMode with
  | Mode.Mode32 => 32
  | Mode.Mode64 => 64

/-- Modelled from the spec: the constructors of `Context` and `ContextImpl` are
not among the sources.  A context configured for `mode` starts with the
singletons of the primitive kinds, the six built-in integer widths 1, 8, 16, 32,
64 and 128, empty uniquing tables and no allocated object. -/
def create (mode : Mode) : Context :=
  { mMode := mode
    mImpl :=
      { mVoidTy := IRType.ctor "void" TypeID.VoidTyID 0
        mFloatTy := IRType.ctor "float" TypeID.FloatTyID 32
        mDoubleTy := IRType.ctor "double" TypeID.DoubleTyID 64
        mLabelTy := IRType.ctor "label" TypeID.LabelTyID 0
        mFunctionTy := IRType.ctor "function" TypeID.FunctionTyID 0
        mInt1Ty := IntegerType.ctor "i1" 1
        mInt8Ty := IntegerType.ctor "i8" 8
        mInt16Ty := IntegerType.ctor "i16" 16
        mInt32Ty := IntegerType.ctor "i32" 32
        mInt64Ty := IntegerType.ctor "i64" 64
        mInt128Ty := IntegerType.ctor "i128" 128
        mIntegerTypes := []
        mPointerTypes := []
        allocated := [] } }

/-- Reading the type object a reference designates (`*p`); `none` when the
reference designates no object of the context. -/
def typeAt (C : Context) : TypeRef → Option IRType
  | TypeRef.mVoidTy => some C.mImpl.mVoidTy
  | TypeRef.mFloatTy => some C.mImpl.mFloatTy
  | TypeRef.mDoubleTy => some C.mImpl.mDoubleTy
  | TypeRef.mLabelTy => some C.mImpl.mLabelTy
  | TypeRef.mFunctionTy => some C.mImpl.mFunctionTy
  | TypeRef.mInt1Ty => some C.mImpl.mInt1Ty
  | TypeRef.mInt8Ty => some C.mImpl.mInt8Ty
  | TypeRef.mInt16Ty => some C.mImpl.mInt16Ty
  | TypeRef.mInt32Ty => some C.mImpl.mInt32Ty
  | TypeRef.mInt64Ty => some C.mImpl.mInt64Ty
  | TypeRef.mInt128Ty => some C.mImpl.mInt128Ty
  | TypeRef.allocated n => C.mImpl.allocated[n]?

/-- A `new` expression: the object is stored at a fresh address, different from
every member and from every earlier allocation. -/
def operatorNew (C : Context) (obj : IRType) : TypeRef × Context :=
  (TypeRef.allocated C.mImpl.allocated.length,
   { C with mImpl := { C.mImpl with allocated := C.mImpl.allocated ++ [obj] } })

/-- The expression `C.mImpl->mIntegerTypes[NumBits]` read as a value: the mapped
pointer of the key, after `operator[]` has inserted a null pointer for a key
that was absent. -/
def indexIntegerTypes (C : Context) (NumBits : Nat) : Option TypeRef × Context :=
  match C.mImpl.mIntegerTypes.lookup NumBits with
  | some Entry => (Entry, C)
  | none =>
    (none,
     { C with mImpl :=
        { C.mImpl with mIntegerTypes := C.mImpl.mIntegerTypes ++ [(NumBits, none)] } })

end Context

/-! ### The static getters of `Type` -/

/-- The getter `Type::getInt1Ty`: `&C.mImpl->mInt1Ty`. -/
def IRType.getInt1Ty (_C : Context) : TypeRef := TypeRef.mInt1Ty

/-- The getter `Type::getInt8Ty`: `&C.mImpl->mInt8Ty`. -/
def IRType.getInt8Ty (_C : Context) : TypeRef := TypeRef.mInt8Ty

/-- The getter `Type::getInt16Ty`: `&C.mImpl->mInt16Ty`. -/
def IRType.getInt16Ty (_C : Context) : TypeRef := TypeRef.mInt16Ty

/-- The getter `Type::getInt32Ty`: `&C.mImpl->mInt32Ty`. -/
def IRType.getInt32Ty (_C : Context) : TypeRef := TypeRef.mInt32Ty

/-- The getter `Type::getInt64Ty`: `&C.mImpl->mInt64Ty`. -/
def IRType.getInt64Ty (_C : Context) : TypeRef := TypeRef.mInt64Ty

/-- The getter `Type::getInt128Ty`: `&C.mImpl->mInt128Ty`. -/
def IRType.getInt128Ty (_C : Context) : TypeRef := TypeRef.mInt128Ty

/-! ### `IntegerType::get` -/

/-- The expression `dynamic_cast<IntegerType *>(p)` for `p` of static type
`IntegerType *` that is not null: a cast to the static type itself, which yields
`p`. -/
def IntegerType.dynamicCast (p : TypeRef) : Option TypeRef := some p

/-- The chain of tests on built-in widths that opens `IntegerType::get`, with the
conditions exactly as written in the source (the second branch tests
`NumBits == 1` again and hands out `getInt8Ty`).  The result is the pointer
returned from inside the chain, or `none` when control leaves the chain. -/
def IntegerType.getBuiltin (C : Context) (NumBits : Nat) : Option TypeRef :=
  if NumBits = 1 then IntegerType.dynamicCast (IRType.getInt1Ty C)
  else if NumBits = 1 then IntegerType.dynamicCast (IRType.getInt8Ty C)
  else if NumBits = 16 then IntegerType.dynamicCast (IRType.getInt16Ty C)
  else if NumBits = 32 then IntegerType.dynamicCast (IRType.getInt32Ty C)
  else if NumBits = 64 then IntegerType.dynamicCast (IRType.getInt64Ty C)
  else if NumBits = 128 then IntegerType.dynamicCast (IRType.getInt128Ty C)
  else none

/-- The tail of `IntegerType::get`:
`IntegerType *Entry = C.mImpl->mIntegerTypes[NumBits];` copies the mapped pointer
into the local `Entry`; when it is null a new `IntegerType` named `"i"` followed
by `std::to_string(NumBits)` is allocated and assigned to the local only.  The
local is returned. -/
def IntegerType.getFromTable (C : Context) (NumBits : Nat) : TypeRef × Context :=
  match C.indexIntegerTypes NumBits with
  | (some Entry, C1) => (Entry, C1)
  | (none, C1) => C1.operatorNew (IntegerType.ctor ("i" ++ toString NumBits) NumBits)

/-- The function `IntegerType::get(C, NumBits)`: the returned pointer and the
context after the call. -/
def IntegerType.get (C : Context) (NumBits : Nat) : TypeRef × Context :=
  match IntegerType.getBuiltin C NumBits with
  | some IntTy => (IntTy, C)
  | none => IntegerType.getFromTable C NumBits

/-! ### `PointerType` -/

/-- The constructor `PointerType::PointerType(C, ElementType, TypeName)`: the
base is initialised with `Type::PointerTyID` and with
`ElementType->getTypeBits()` as its size, then `mElementType = ElementType`. -/
def PointerType.ctor (C : Context) (ElementType : TypeRef) (TypeName : String) :
    Except Fatal IRType :=
  match C.typeAt ElementType with
  | none => .error .nullDeref
  | some E =>
    .ok { IRType.ctor TypeName TypeID.PointerTyID E.getTypeBits with
          mElementType := some ElementType }

/-- The getter `PointerType::getElementType`: `return mElementType;`. -/
def PointerType.getElementType (C : Context) (this : TypeRef) :
    Except Fatal (Option TypeRef) :=
  match C.typeAt this with
  | none => .error .nullDeref
  | some P => .ok P.mElementType

/-- The getter `PointerType::getPointerBits`: `return mContext.getModeBits();`. -/
def PointerType.getPointerBits (C : Context) (this : TypeRef) : Except Fatal Nat :=
  match C.typeAt this with
  | none => .error .nullDeref
  | some _ => .ok C.getModeBits

/-- The getter `PointerType::getElementTypeBits`:
`return mElementType->getTypeBits();`. -/
def PointerType.getElementTypeBits (C : Context) (this : TypeRef) : Except Fatal Nat :=
  match C.typeAt this with
  | none => .error .nullDeref
  | some P =>
    match P.mElementType with
    | none => .error .nullDeref
    | some ElementType =>
      match C.typeAt ElementType with
      | none => .error .nullDeref
      | some E => .ok E.getTypeBits

/-- Modelled from the spec: `ContextImpl::getPointerType` is not among the
sources.  The specification has pointer types uniqued by element type within the
context: the element type is looked up in the pointer table; on a miss a
`PointerType` over it is constructed (named after the element type, with a
trailing star) and registered. -/
def ContextImpl.getPointerType (C : Context) (ElementType : TypeRef) :
    Except Fatal (TypeRef × Context) :=
  match C.mImpl.mPointerTypes.lookup ElementType with
  | some Entry => .ok (Entry, C)
  | none =>
    match C.typeAt ElementType with
    | none => .error .nullDeref
    | some E =>
      match PointerType.ctor C ElementType (E.getTypeName ++ "*") with
      | .error e => .error e
      | .ok obj =>
        let (Entry, C1) := C.operatorNew obj
        .ok (Entry,
             { C1 with mImpl :=
                { C1.mImpl with
                  mPointerTypes := C1.mImpl.mPointerTypes ++ [(ElementType, Entry)] } })

/-- The function `PointerType::get(C, ElementType)`:
`return C.mImpl->getPointerType(ElementType);`. -/
def PointerType.get (C : Context) (ElementType : TypeRef) :
    Except Fatal (TypeRef × Context) :=
  ContextImpl.getPointerType C ElementType

/-- The member `Type::getPointerTo`: `return PointerType::get(mContext, this);`. -/
def IRType.getPointerTo (C : Context) (this : TypeRef) : Except Fatal (TypeRef × Context) :=
  PointerType.get C this

/-- The getter `Type::getInt64PtrTy`: fatal under `Context::Mode32`, otherwise
`getInt64Ty(C)->getPointerTo()`. -/
def IRType.getInt64PtrTy (C : Context) : Except Fatal (TypeRef × Context) :=
  if C.getMode = Mode.Mode32 then uir_unreachable "Mode32 has not Int64PtrTy"
  else IRType.getPointerTo C (IRType.getInt64Ty C)

/-! ## Values (`Value.h`, `UnknownIR.Value.cpp`) -/

/-- Identity (address) of a `Value` object; a `User *` is such an address too. -/
abbrev ValueRef := Nat

/-- The data members of a `Value`: `mType` (`none` is the null pointer),
`mValueName`, and `mUsers`, a `std::unordered_set<User *>` kept as the
duplicate-free list of its elements in iteration order. -/
structure Value where
  mType : Option TypeRef
  mValueName : String
  mUsers : List ValueRef
  deriving DecidableEq, Repr

namespace Value

/-- The constructor `Value::Value(Ty, ValueName)`; the body clears `mUsers`. -/
def ctor (Ty : Option TypeRef) (ValueName : String) : Value :=
  { mType := Ty, mValueName := ValueName, mUsers := [] }

/-- The getter `Value::getName`. -/
def getName (this : Value) : String := this.mValueName

/-- The predicate `Value::hasName`: `!mValueName.empty()`. -/
def hasName (this : Value) : Bool := !this.mValueName.isEmpty

/-- The setter `Value::setName`. -/
def setName (this : Value) (ValueName : String) : Value :=
  { this with mValueName := ValueName }

/-- The getter `Value::getType`. -/
def getType (this : Value) : Option TypeRef := this.mType

/-- The setter `Value::setType`: `mType = Ty;` and nothing else. -/
def setType (this : Value) (Ty : Option TypeRef) : Value :=
  { this with mType := Ty }

/-- The getter `Value::getValueBits`: `return mType->getTypeBits();`. -/
def getValueBits (C : Context) (this : Value) : Except Fatal Nat :=
  match this.mType with
  | none => .error .nullDeref
  | some Ty =>
    match C.typeAt Ty with
    | none => .error .nullDeref
    | some T => .ok T.getTypeBits

/-- The getter `Value::getValueSize`: `return mType->getTypeBits() / 8;`. -/
def getValueSize (C : Context) (this : Value) : Except Fatal Nat :=
  match this.mType with
  | none => .error .nullDeref
  | some Ty =>
    match C.typeAt Ty with
    | none => .error .nullDeref
    | some T => .ok (T.getTypeBits / 8)

/-- Modelled from the spec: the bodies of the `user_*` members declared in
`Value.h` are not among the sources.  `user_contains` tests membership in the
back-reference set. -/
def user_contains (this : Value) (U : ValueRef) : Bool := this.mUsers.contains U

/-- Modelled from the spec: `user_insert` adds a user to the back-reference set;
a user appears in the set at most once. -/
def user_insert (this : Value) (U : ValueRef) : Value :=
  if this.mUsers.contains U then this else { this with mUsers := this.mUsers ++ [U] }

/-- Modelled from the spec: `user_erase` removes a user from the back-reference
set; the other elements keep their relative order. -/
def user_erase (this : Value) (U : ValueRef) : Value :=
  { this with mUsers := this.mUsers.erase U }

/-- Modelled from the spec: `user_clear` empties the back-reference set. -/
def user_clear (this : Value) : Value := { this with mUsers := [] }

end Value

/-! ## Constants (`Constant.h`, `UnknownIR.Constant.cpp`) -/

/-- The constructor `Constant::Constant(Ty, ConstantName)`: it forwards to
`Value(Ty, ConstantName)`. -/
def Constant.ctor (Ty : Option TypeRef) (ConstantName : String) : Value :=
  Value.ctor Ty ConstantName

/-- The data members of a `ConstantInt`: those of its `Value` base and the
`uint64_t` payload `mVal`. -/
structure ConstantInt extends Value where
  mVal : Nat
  deriving DecidableEq, Repr

namespace ConstantInt

/-- The getter `ConstantInt::getValue`: `return mVal;`. -/
def getValue (this : ConstantInt) : Nat := this.mVal

/-- The getter `ConstantInt::getBitWidth`: `return getValueBits();`. -/
def getBitWidth (C : Context) (this : ConstantInt) : Except Fatal Nat :=
  this.toValue.getValueBits C

/-- The member `ConstantInt::setValue(Val)`, branch by branch.  The casts
`(uint64_t)((uintN_t)Val)` are the remainder modulo `2 ^ N` widened to 64 bits. -/
def setValue (C : Context) (this : ConstantInt) (Val : Nat) : Except Fatal ConstantInt :=
  match this.getBitWidth C with
  | .error e => .error e
  | .ok BitWidth =>
    if BitWidth = 1 then
      if Val ≠ 0 then .ok { this with mVal := 1 } else .ok { this with mVal := 0 }
    else if BitWidth = 8 then .ok { this with mVal := (Val % 2 ^ 8) % 2 ^ 64 }
    else if BitWidth = 16 then .ok { this with mVal := (Val % 2 ^ 16) % 2 ^ 64 }
    else if BitWidth = 32 then .ok { this with mVal := (Val % 2 ^ 32) % 2 ^ 64 }
    else if BitWidth = 64 then .ok { this with mVal := (Val % 2 ^ 64) % 2 ^ 64 }
    else uir_unreachable "Unknown BitWidth in ConstantInt::setValue"

/-- The constructor `ConstantInt::ConstantInt(Ty, Val)`: the base is
`Constant(Ty, std::to_string(Val))`, the body is `setValue(Val)`.  The member
`mVal` has no initialiser; `indeterminate` is whatever it holds before the
body runs. -/
def ctor (C : Context) (Ty : Option TypeRef) (Val : Nat) (indeterminate : Nat) :
    Except Fatal ConstantInt :=
  setValue C { toValue := Constant.ctor Ty (toString Val), mVal := indeterminate } Val

end ConstantInt

/-- A public mutation of a `ConstantInt`: its own `setValue` and the members it
inherits from `Value`. -/
inductive Mutation where
  | setValue (Val : Nat)
  | setType (Ty : Option TypeRef)
  | setName (ValueName : String)
  | user_insert (U : ValueRef)
  | user_erase (U : ValueRef)
  | user_clear
  deriving DecidableEq, Repr

/-- The effect of one public mutation on a `ConstantInt`. -/
def ConstantInt.mutate (C : Context) (this : ConstantInt) : Mutation → Except Fatal ConstantInt
  | Mutation.setValue Val => this.setValue C Val
  | Mutation.setType Ty => .ok { this with toValue := this.toValue.setType Ty }
  | Mutation.setName ValueName => .ok { this with toValue := this.toValue.setName ValueName }
  | Mutation.user_insert U => .ok { this with toValue := this.toValue.user_insert U }
  | Mutation.user_erase U => .ok { this with toValue := this.toValue.user_erase U }
  | Mutation.user_clear => .ok { this with toValue := this.toValue.user_clear }

/-- A sequence of public mutations, applied from left to right; it stops at the
first fatal call. -/
def ConstantInt.mutateAll (C : Context) (this : ConstantInt) :
    List Mutation → Except Fatal ConstantInt
  | [] => .ok this
  | m :: ms =>
    match this.mutate C m with
    | .error e => .error e
    | .ok next => ConstantInt.mutateAll C next ms

/-! ## The use-def protocol -/

/-- The live `Value` objects by address, and the record of the
`replaceUsesOfWith` requests made so far as triples (user asked, `From`, `To`).
The record is ghost state: no code reads it. -/
structure Heap where
  objects : List (ValueRef × Value)
  requests : List (ValueRef × ValueRef × ValueRef)
  deriving DecidableEq, Repr

/-- The user set `mUsers` of the object at an address. -/
def Heap.usersOf (h : Heap) (r : ValueRef) : Except Fatal (List ValueRef) :=
  match h.objects.lookup r with
  | none => .error .nullDeref
  | some v => .ok v.mUsers

/-- Applying a member function to the object at an address. -/
def modifyObject (objs : List (ValueRef × Value)) (r : ValueRef) (f : Value → Value) :
    List (ValueRef × Value) :=
  objs.map fun p => if p.1 = r then (p.1, f p.2) else p

/-- The overriders of the virtual member `replaceUsesOfWith`: what the call
`U->replaceUsesOfWith(From, To)` does to the objects, for each user `U`.  The
concrete `User` subclasses are outside the sources, so this is a parameter. -/
abbrev Overriders :=
  ValueRef → ValueRef → ValueRef → List (ValueRef × Value) → List (ValueRef × Value)

/-- The overrider the collaboration contract expects of a user: it erases itself
from the user set of `From` and inserts itself into the user set of `To`. -/
def User.migrate : Overriders := fun U From To objs =>
  modifyObject (modifyObject objs From fun v => v.user_erase U) To fun v => v.user_insert U

/-- The virtual call `U->replaceUsesOfWith(From, To)`: the overrider runs and the
request is recorded. -/
def User.replaceUsesOfWith (impl : Overriders) (U From To : ValueRef) (h : Heap) : Heap :=
  { objects := impl U From To h.objects, requests := h.requests ++ [(U, From, To)] }

/-- The member `Value::replaceUsesOfWith(From, To)`: the body is empty.  The
receiver is given by its data members, `From` and `To` by their addresses in the
heap; the call returns the receiver and the heap it leaves behind. -/
def Value.replaceUsesOfWith (this : Value) (_From _To : ValueRef) (h : Heap) :
    Value × Heap := (this, h)

/-- The member `Value::replaceAllUsesWith(V)`: the body is empty. -/
def Value.replaceAllUsesWith (this : Value) (_V : ValueRef) (h : Heap) :
    Value × Heap := (this, h)

/-- The member `Constant::replaceUsesOfWith(From, To)`: the body is empty. -/
def Constant.replaceUsesOfWith (this : Value) (_From _To : ValueRef) (h : Heap) :
    Value × Heap := (this, h)

/-- The member `ConstantInt::replaceUsesOfWith(From, To)`: the body is empty. -/
def ConstantInt.replaceUsesOfWith (this : ConstantInt) (_From _To : ValueRef) (h : Heap) :
    ConstantInt × Heap := (this, h)

/-- The member `ConstantInt::replaceAllUsesWith(V)`: the body is empty. -/
def ConstantInt.replaceAllUsesWith (this : ConstantInt) (_V : ValueRef) (h : Heap) :
    ConstantInt × Heap := (this, h)

/-- The element that follows `U` in the iteration order of a set, if any: the
result of `++it` for a valid iterator `it` designating `U`. -/
def iteratorNext (U : ValueRef) (users : List ValueRef) : Option ValueRef :=
  ((users.dropWhile fun x => x != U).drop 1).head?

/-- The range-based loop `for (auto &User : mUsers) User->replaceUsesOfWith(this, V);`
of `Constant::replaceAllUsesWith`, run on the live set `this->mUsers`.  The
iterator is the element it designates (`none` is `end()`).  One round calls the
user and then advances the iterator; erasing an element of an unordered set
invalidates the iterators that designate it, so when the call has removed the
current user from `this->mUsers` the increment has no defined result
(`Fatal.invalidIterator`).  `fuel` bounds the number of rounds. -/
def Constant.replaceAllUsesWithLoop (impl : Overriders) (this V : ValueRef) :
    Nat → Option ValueRef → Heap → Except Fatal Heap
  | _, none, h => .ok h
  | 0, some _, _ => .error .outOfFuel
  | fuel + 1, some U, h =>
    let h1 := User.replaceUsesOfWith impl U this V h
    match h1.usersOf this with
    | .error e => .error e
    | .ok users =>
      if users.contains U then
        Constant.replaceAllUsesWithLoop impl this V fuel (iteratorNext U users) h1
      else .error .invalidIterator

/-- The member `Constant::replaceAllUsesWith(V)`: return at once when
`V == this`, otherwise run the loop over `mUsers` from `begin()`. -/
def Constant.replaceAllUsesWith (impl : Overriders) (fuel : Nat) (this V : ValueRef)
    (h : Heap) : Except Fatal Heap :=
  if V = this then .ok h
  else
    match h.usersOf this with
    | .error e => .error e
    | .ok users => Constant.replaceAllUsesWithLoop impl this V fuel users.head? h

/-! ## Contexts a program can hold -/

/-- The contexts that arise from the construction of a context followed by calls
of the static factories `IntegerType::get` and `PointerType::get`. -/
inductive Context.Reachable : Context → Prop where
  | create (mode : Mode) : Context.Reachable (Context.create mode)
  | integerGet {C : Context} (NumBits : Nat) :
      Context.Reachable C → Context.Reachable (IntegerType.get C NumBits).2
  | pointerGet {C C1 : Context} (ElementType P : TypeRef) :
      Context.Reachable C → PointerType.get C ElementType = .ok (P, C1) →
      Context.Reachable C1

/-- The six requests of the uniquing test, `IntegerType::get(ctx, 1)`,
`get(ctx, 8)`, ..., `get(ctx, 128)`, made one after the other on one context:
the six returned pointers. -/
def IntegerType.getBuiltinWidths (C : Context) : List TypeRef :=
  let r1 := IntegerType.get C 1
  let r8 := IntegerType.get r1.2 8
  let r16 := IntegerType.get r8.2 16
  let r32 := IntegerType.get r16.2 32
  let r64 := IntegerType.get r32.2 64
  let r128 := IntegerType.get r64.2 128
  [r1.1, r8.1, r16.1, r32.1, r64.1, r128.1]

/-! ## Canonical payloads -/

/-- The payload is canonical for the declared width: `getBitWidth()` is defined
and `mVal < 2 ^ getBitWidth()`. -/
def ConstantInt.Canonical (C : Context) (this : ConstantInt) : Prop :=
  match this.getBitWidth C with
  | .ok w => this.mVal < 2 ^ w
  | .error _ => False

instance (C : Context) (this : ConstantInt) : Decidable (this.Canonical C) := by
  unfold ConstantInt.Canonical
  split <;> infer_instance

/-- A mutation that does not narrow the constant: every mutation other than
`setType`, and a `setType(Ty)` for which the bit-width of `Ty` is at least the
present bit-width of the constant. -/
def ConstantInt.admits (C : Context) (this : ConstantInt) : Mutation → Bool
  | Mutation.setType Ty =>
    match this.getBitWidth C, (this.toValue.setType Ty).getValueBits C with
    | .ok w, .ok w1 => decide (w ≤ w1)
    | _, _ => false
  | _ => true

/-- No step of the sequence narrows the constant it is applied to. -/
def ConstantInt.neverNarrows (C : Context) (this : ConstantInt) : List Mutation → Bool
  | [] => true
  | m :: ms =>
    this.admits C m &&
      match this.mutate C m with
      | .error _ => true
      | .ok next => ConstantInt.neverNarrows C next ms

/-! ## A context with a pointer type -/

/-- The pointer object `PointerType::get(ctx, getInt8Ty(ctx))` constructs on a new
context. -/
def PointerType.int8Pointer : IRType :=
  { mTypeName := "i8*", mTypeID := TypeID.PointerTyID, mTypeSizeInBits := 8,
    mElementType := some TypeRef.mInt8Ty }

/-- The new 64-bit context after `PointerType::get(ctx, getInt8Ty(ctx))`: one
allocated object, registered under its element type. -/
def PointerType.int8PointerContext : Context :=
  { Context.create Mode.Mode64 with
    mImpl :=
      { (Context.create Mode.Mode64).mImpl with
        allocated := [PointerType.int8Pointer]
        mPointerTypes := [(TypeRef.mInt8Ty, TypeRef.allocated 0)] } }

/-- The pointer object `PointerType::get(ctx, getInt64Ty(ctx))` constructs. -/
def PointerType.int64Pointer : IRType :=
  { mTypeName := "i64*", mTypeID := TypeID.PointerTyID, mTypeSizeInBits := 64,
    mElementType := some TypeRef.mInt64Ty }

/-- The new 64-bit context after `PointerType::get(ctx, getInt8Ty(ctx))` followed
by `PointerType::get(ctx, getInt64Ty(ctx))`: two allocated objects, each
registered under its element type. -/
def PointerType.int8Int64PointerContext : Context :=
  { Context.create Mode.Mode64 with
    mImpl :=
      { (Context.create Mode.Mode64).mImpl with
        allocated := [PointerType.int8Pointer, PointerType.int64Pointer]
        mPointerTypes := [(TypeRef.mInt8Ty, TypeRef.allocated 0),
                          (TypeRef.mInt64Ty, TypeRef.allocated 1)] } }

/-- The pointer table of a context is sound: every registered pointer is an
object allocated for the context, and no object is registered under two element
types. -/
def Context.PointerTableSound (C : Context) : Prop :=
  (∀ E P, C.mImpl.mPointerTypes.lookup E = some P →
    ∃ n, P = TypeRef.allocated n ∧ n < C.mImpl.allocated.length) ∧
  (∀ E F P, C.mImpl.mPointerTypes.lookup E = some P →
    C.mImpl.mPointerTypes.lookup F = some P → E = F)

/-! ## Reading a constant back -/

/-- The value of a mathematical integer converted to `int64_t`. -/
def toInt64 (x : Int) : Int := (x + 2 ^ 63) % 2 ^ 64 - 2 ^ 63

/-- Modelled from the spec: `ConstantInt::getZExtValue` is declared in
`Constant.h` but its body is not among the sources.  The specification has it
return the canonicalized payload as unsigned. -/
def ConstantInt.getZExtValue (this : ConstantInt) : Nat := this.mVal

/-- Modelled from the spec: `ConstantInt::getSExtValue` is declared in
`Constant.h` but its body is not among the sources.  The specification has it
return the payload sign-extended from the declared bit-width: the low
`getBitWidth()` bits of the payload are read in two's complement, the bit at
position `getBitWidth() - 1` being the sign, and the result is an `int64_t`. -/
def ConstantInt.getSExtValue (C : Context) (this : ConstantInt) : Except Fatal Int :=
  match this.getBitWidth C with
  | .error e => .error e
  | .ok w =>
    .ok (toInt64
      (if this.mVal.testBit (w - 1) then ((this.mVal % 2 ^ w : Nat) : Int) - 2 ^ w
       else ((this.mVal % 2 ^ w : Nat) : Int)))

/-! ## The x86 register table (`UnknownUtils.Target.x86.cpp`, namespace `unknown`) -/

/-- The rows of the initializer list of the local `R2N` in
`TargetX86::getRegisterName`, in source order: the name of the enumerator that is
the key and the register name that is the mapped value. -/
def TargetX86.registerRows : List (String × String) :=
  [("X86_REG_AH", "ah"), ("X86_REG_AL", "al"), ("X86_REG_AX", "ax"), ("X86_REG_BH", "bh"),
   ("X86_REG_BL", "bl"), ("X86_REG_BP", "bp"), ("X86_REG_BPL", "bpl"),
   ("X86_REG_BX", "bx"), ("X86_REG_CH", "ch"), ("X86_REG_CL", "cl"), ("X86_REG_CS", "cs"),
   ("X86_REG_CX", "cx"), ("X86_REG_DH", "dh"), ("X86_REG_DI", "di"),
   ("X86_REG_DIL", "dil"), ("X86_REG_DL", "dl"), ("X86_REG_DS", "ds"),
   ("X86_REG_DX", "dx"), ("X86_REG_EAX", "eax"), ("X86_REG_EBP", "ebp"),
   ("X86_REG_EBX", "ebx"), ("X86_REG_ECX", "ecx"), ("X86_REG_EDI", "edi"),
   ("X86_REG_EDX", "edx"), ("X86_REG_EFLAGS", "flags"), ("X86_REG_EIP", "eip"),
   ("X86_REG_EIZ", "eiz"), ("X86_REG_ES", "es"), ("X86_REG_ESI", "esi"),
   ("X86_REG_ESP", "esp"), ("X86_REG_FPSW", "fpsw"), ("X86_REG_FS", "fs"),
   ("X86_REG_GS", "gs"), ("X86_REG_IP", "ip"), ("X86_REG_RAX", "rax"),
   ("X86_REG_RBP", "rbp"), ("X86_REG_RBX", "rbx"), ("X86_REG_RCX", "rcx"),
   ("X86_REG_RDI", "rdi"), ("X86_REG_RDX", "rdx"), ("X86_REG_RIP", "rip"),
   ("X86_REG_RIZ", "riz"), ("X86_REG_RSI", "rsi"), ("X86_REG_RSP", "rsp"),
   ("X86_REG_SI", "si"), ("X86_REG_SIL", "sil"), ("X86_REG_SP", "sp"),
   ("X86_REG_SPL", "spl"), ("X86_REG_SS", "ss"), ("X86_REG_CR0", "cr0"),
   ("X86_REG_CR1", "cr1"), ("X86_REG_CR2", "cr2"), ("X86_REG_CR3", "cr3"),
   ("X86_REG_CR4", "cr4"), ("X86_REG_CR5", "cr5"), ("X86_REG_CR6", "cr6"),
   ("X86_REG_CR7", "cr7"), ("X86_REG_CR8", "cr8"), ("X86_REG_CR9", "cr9"),
   ("X86_REG_CR10", "cr10"), ("X86_REG_CR11", "cr11"), ("X86_REG_CR12", "cr12"),
   ("X86_REG_CR13", "cr13"), ("X86_REG_CR14", "cr14"), ("X86_REG_CR15", "cr15"),
   ("X86_REG_DR0", "dr0"), ("X86_REG_DR1", "dr1"), ("X86_REG_DR2", "dr2"),
   ("X86_REG_DR3", "dr3"), ("X86_REG_DR4", "dr4"), ("X86_REG_DR5", "dr5"),
   ("X86_REG_DR6", "dr6"), ("X86_REG_DR7", "dr7"), ("X86_REG_DR8", "dr8"),
   ("X86_REG_DR9", "dr9"), ("X86_REG_DR10", "dr10"), ("X86_REG_DR11", "dr11"),
   ("X86_REG_DR12", "dr12"), ("X86_REG_DR13", "dr13"), ("X86_REG_DR14", "dr14"),
   ("X86_REG_DR15", "dr15"), ("X86_REG_FP0", "fp0"), ("X86_REG_FP1", "fp1"),
   ("X86_REG_FP2", "fp2"), ("X86_REG_FP3", "fp3"), ("X86_REG_FP4", "fp4"),
   ("X86_REG_FP5", "fp5"), ("X86_REG_FP6", "fp6"), ("X86_REG_FP7", "fp7"),
   ("X86_REG_K0", "k0"), ("X86_REG_K1", "k1"), ("X86_REG_K2", "k2"), ("X86_REG_K3", "k3"),
   ("X86_REG_K4", "k4"), ("X86_REG_K5", "k5"), ("X86_REG_K6", "k6"), ("X86_REG_K7", "k7"),
   ("X86_REG_MM0", "mm0"), ("X86_REG_MM1", "mm1"), ("X86_REG_MM2", "mm2"),
   ("X86_REG_MM3", "mm3"), ("X86_REG_MM4", "mm4"), ("X86_REG_MM5", "mm5"),
   ("X86_REG_MM6", "mm6"), ("X86_REG_MM7", "mm7"), ("X86_REG_R8", "r8"),
   ("X86_REG_R9", "r9"), ("X86_REG_R10", "r10"), ("X86_REG_R11", "r11"),
   ("X86_REG_R12", "r12"), ("X86_REG_R13", "r13"), ("X86_REG_R14", "r14"),
   ("X86_REG_R15", "r15"), ("X86_REG_XMM0", "xmm0"), ("X86_REG_XMM1", "xmm1"),
   ("X86_REG_XMM2", "xmm2"), ("X86_REG_XMM3", "xmm3"), ("X86_REG_XMM4", "xmm4"),
   ("X86_REG_XMM5", "xmm5"), ("X86_REG_XMM6", "xmm6"), ("X86_REG_XMM7", "xmm7"),
   ("X86_REG_XMM8", "xmm8"), ("X86_REG_XMM9", "xmm9"), ("X86_REG_XMM10", "xmm10"),
   ("X86_REG_XMM11", "xmm11"), ("X86_REG_XMM12", "xmm12"), ("X86_REG_XMM13", "xmm13"),
   ("X86_REG_XMM14", "xmm14"), ("X86_REG_XMM15", "xmm15"), ("X86_REG_XMM16", "xmm16"),
   ("X86_REG_XMM17", "xmm17"), ("X86_REG_XMM18", "xmm18"), ("X86_REG_XMM19", "xmm19"),
   ("X86_REG_XMM20", "xmm20"), ("X86_REG_XMM21", "xmm21"), ("X86_REG_XMM22", "xmm22"),
   ("X86_REG_XMM23", "xmm23"), ("X86_REG_XMM24", "xmm24"), ("X86_REG_XMM25", "xmm25"),
   ("X86_REG_XMM26", "xmm26"), ("X86_REG_XMM27", "xmm27"), ("X86_REG_XMM28", "xmm28"),
   ("X86_REG_XMM29", "xmm29"), ("X86_REG_XMM30", "xmm30"), ("X86_REG_XMM31", "xmm31"),
   ("X86_REG_YMM0", "ymm0"), ("X86_REG_YMM1", "ymm1"), ("X86_REG_YMM2", "ymm2"),
   ("X86_REG_YMM3", "ymm3"), ("X86_REG_YMM4", "ymm4"), ("X86_REG_YMM5", "ymm5"),
   ("X86_REG_YMM6", "ymm6"), ("X86_REG_YMM7", "ymm7"), ("X86_REG_YMM8", "ymm8"),
   ("X86_REG_YMM9", "ymm9"), ("X86_REG_YMM10", "ymm10"), ("X86_REG_YMM11", "ymm11"),
   ("X86_REG_YMM12", "ymm12"), ("X86_REG_YMM13", "ymm13"), ("X86_REG_YMM14", "ymm14"),
   ("X86_REG_YMM15", "ymm15"), ("X86_REG_YMM16", "ymm16"), ("X86_REG_YMM17", "ymm17"),
   ("X86_REG_YMM18", "ymm18"), ("X86_REG_YMM19", "ymm19"), ("X86_REG_YMM20", "ymm20"),
   ("X86_REG_YMM21", "ymm21"), ("X86_REG_YMM22", "ymm22"), ("X86_REG_YMM23", "ymm23"),
   ("X86_REG_YMM24", "ymm24"), ("X86_REG_YMM25", "ymm25"), ("X86_REG_YMM26", "ymm26"),
   ("X86_REG_YMM27", "ymm27"), ("X86_REG_YMM28", "ymm28"), ("X86_REG_YMM29", "ymm29"),
   ("X86_REG_YMM30", "ymm30"), ("X86_REG_YMM31", "ymm31"), ("X86_REG_ZMM0", "zmm0"),
   ("X86_REG_ZMM1", "zmm1"), ("X86_REG_ZMM2", "zmm2"), ("X86_REG_ZMM3", "zmm3"),
   ("X86_REG_ZMM4", "zmm4"), ("X86_REG_ZMM5", "zmm5"), ("X86_REG_ZMM6", "zmm6"),
   ("X86_REG_ZMM7", "zmm7"), ("X86_REG_ZMM8", "zmm8"), ("X86_REG_ZMM9", "zmm9"),
   ("X86_REG_ZMM10", "zmm10"), ("X86_REG_ZMM11", "zmm11"), ("X86_REG_ZMM12", "zmm12"),
   ("X86_REG_ZMM13", "zmm13"), ("X86_REG_ZMM14", "zmm14"), ("X86_REG_ZMM15", "zmm15"),
   ("X86_REG_ZMM16", "zmm16"), ("X86_REG_ZMM17", "zmm17"), ("X86_REG_ZMM18", "zmm18"),
   ("X86_REG_ZMM19", "zmm19"), ("X86_REG_ZMM20", "zmm20"), ("X86_REG_ZMM21", "zmm21"),
   ("X86_REG_ZMM22", "zmm22"), ("X86_REG_ZMM23", "zmm23"), ("X86_REG_ZMM24", "zmm24"),
   ("X86_REG_ZMM25", "zmm25"), ("X86_REG_ZMM26", "zmm26"), ("X86_REG_ZMM27", "zmm27"),
   ("X86_REG_ZMM28", "zmm28"), ("X86_REG_ZMM29", "zmm29"), ("X86_REG_ZMM30", "zmm30"),
   ("X86_REG_ZMM31", "zmm31"), ("X86_REG_R8B", "r8b"), ("X86_REG_R9B", "r9b"),
   ("X86_REG_R10B", "r10b"), ("X86_REG_R11B", "r11b"), ("X86_REG_R12B", "r12b"),
   ("X86_REG_R13B", "r13b"), ("X86_REG_R14B", "r14b"), ("X86_REG_R15B", "r15b"),
   ("X86_REG_R8D", "r8d"), ("X86_REG_R9D", "r9d"), ("X86_REG_R10D", "r10d"),
   ("X86_REG_R11D", "r11d"), ("X86_REG_R12D", "r12d"), ("X86_REG_R13D", "r13d"),
   ("X86_REG_R14D", "r14d"), ("X86_REG_R15D", "r15d"), ("X86_REG_R8W", "r8w"),
   ("X86_REG_R9W", "r9w"), ("X86_REG_R10W", "r10w"), ("X86_REG_R11W", "r11w"),
   ("X86_REG_R12W", "r12w"), ("X86_REG_R13W", "r13w"), ("X86_REG_R14W", "r14w"),
   ("X86_REG_R15W", "r15w"), ("X86_REG_CF", "cf"), ("X86_REG_PF", "pf"),
   ("X86_REG_AF", "af"), ("X86_REG_ZF", "zf"), ("X86_REG_SF", "sf"), ("X86_REG_TF", "tf"),
   ("X86_REG_IF", "if"), ("X86_REG_DF", "df"), ("X86_REG_OF", "of"),
   ("X86_REG_IOPL", "iopl"), ("X86_REG_NT", "nt"), ("X86_REG_RF", "rf"),
   ("X86_REG_VM", "vm"), ("X86_REG_AC", "ac"), ("X86_REG_VIF", "vif"),
   ("X86_REG_VIP", "vip"), ("X86_REG_ID", "id"), ("X87_REG_IE", "fpu_stat_IE"),
   ("X87_REG_DE", "fpu_stat_DE"), ("X87_REG_ZE", "fpu_stat_ZE"),
   ("X87_REG_OE", "fpu_stat_OE"), ("X87_REG_UE", "fpu_stat_UE"),
   ("X87_REG_PE", "fpu_stat_PE"), ("X87_REG_SF", "fpu_stat_SF"),
   ("X87_REG_ES", "fpu_stat_ES"), ("X87_REG_C0", "fpu_stat_C0"),
   ("X87_REG_C1", "fpu_stat_C1"), ("X87_REG_C2", "fpu_stat_C2"),
   ("X87_REG_C3", "fpu_stat_C3"), ("X87_REG_TOP", "fpu_stat_TOP"),
   ("X87_REG_B", "fpu_stat_B"), ("X87_REG_IM", "fpu_control_IM"),
   ("X87_REG_DM", "fpu_control_DM"), ("X87_REG_ZM", "fpu_control_ZM"),
   ("X87_REG_OM", "fpu_control_OM"), ("X87_REG_UM", "fpu_control_UM"),
   ("X87_REG_PM", "fpu_control_PM"), ("X87_REG_PC", "fpu_control_PC"),
   ("X87_REG_RC", "fpu_control_RC"), ("X87_REG_X", "fpu_control_X"),
   ("X86_REG_ST0", "st0"), ("X86_REG_ST1", "st1"), ("X86_REG_ST2", "st2"),
   ("X86_REG_ST3", "st3"), ("X86_REG_ST4", "st4"), ("X86_REG_ST5", "st5"),
   ("X86_REG_ST6", "st6"), ("X86_REG_ST7", "st7")]

/-- The numeric values of the enumerators the file uses.  Their declarations
(`capstone/capstone.h`, `Target.x86.h`) are not among the sources, so the values
are a parameter: `keys` lists the values of the keys of the initializer list, in
source order. -/
structure EnumValues where
  keys : List Nat
  X86_REG_EAX : Nat
  X86_REG_INVALID : Nat
  deriving DecidableEq, Repr

/-- The initializer list of `R2N` with every enumerator replaced by its numeric
value. -/
def TargetX86.initializerList (K : EnumValues) : List (Nat × String) :=
  K.keys.zip (TargetX86.registerRows.map Prod.snd)

/-- The member `insert` of an unordered map, kept as the list of its entries: the
entry is added unless its key is present already. -/
def mapInsert {α β : Type} [BEq α] (m : List (α × β)) (entry : α × β) : List (α × β) :=
  if (m.lookup entry.1).isSome then m else m ++ [entry]

/-- The construction of an unordered map from an initializer list: the entries
are inserted one after the other. -/
def mapOfList {α β : Type} [BEq α] (l : List (α × β)) : List (α × β) :=
  l.foldl mapInsert []

/-- The data members of `TargetX86` used by the lookups: the maps `mReg2Name` and
`mName2Reg`. -/
structure TargetX86 where
  mReg2Name : List (Nat × String)
  mName2Reg : List (String × Nat)
  deriving DecidableEq, Repr

namespace TargetX86

/-- The constructor `TargetX86::TargetX86()`: the body is empty, both maps start
empty. -/
def ctor : TargetX86 := { mReg2Name := [], mName2Reg := [] }

/-- The member `TargetX86::getRegisterName(RegID)`: when `mReg2Name` is empty it
is filled from the initializer list; then `find(RegID)` decides between the
empty string and the mapped name.  The result is the returned string and the
object after the call. -/
def getRegisterName (K : EnumValues) (this : TargetX86) (RegID : Nat) :
    String × TargetX86 :=
  let this1 :=
    if this.mReg2Name.isEmpty then
      { this with mReg2Name := mapOfList (TargetX86.initializerList K) }
    else this
  match this1.mReg2Name.lookup RegID with
  | none => ("", this1)
  | some name => (name, this1)

/-- The member `TargetX86::getRegisterID(RegName)`: when `mName2Reg` is empty,
`getRegisterName(X86_REG_EAX)` is called for its side effect and every item of
`mReg2Name` is inserted, reversed, into `mName2Reg` (the items are visited in
the order they were inserted); then `find(RegName)` decides between
`X86_REG_INVALID` and the mapped id. -/
def getRegisterID (K : EnumValues) (this : TargetX86) (RegName : String) :
    Nat × TargetX86 :=
  let this1 :=
    if this.mName2Reg.isEmpty then
      let this0 := (getRegisterName K this K.X86_REG_EAX).2
      { this0 with
        mName2Reg :=
          this0.mReg2Name.foldl (fun m Item => mapInsert m (Item.2, Item.1)) this0.mName2Reg }
    else this
  match this1.mName2Reg.lookup RegName with
  | none => (K.X86_REG_INVALID, this1)
  | some id => (id, this1)

/-- The states of a `TargetX86` object: constructed, then changed only by its two
lookups. -/
inductive Reachable (K : EnumValues) : TargetX86 → Prop where
  | ctor : Reachable K TargetX86.ctor
  | getRegisterName {this : TargetX86} (RegID : Nat) :
      Reachable K this → Reachable K (getRegisterName K this RegID).2
  | getRegisterID {this : TargetX86} (RegName : String) :
      Reachable K this → Reachable K (getRegisterID K this RegName).2

/-- A numbering of the enumerators by position, for examples: `X86_REG_INVALID`
is 0 and the key of the `i`-th row is `i`, counting from 1, which makes
`X86_REG_EAX`, the key of row 19, equal to 19. -/
def rowNumbering : EnumValues :=
  { keys := List.range' 1 281, X86_REG_EAX := 19, X86_REG_INVALID := 0 }

end TargetX86

/-- The call `setValue(getValue())` on a constant. -/
def ConstantInt.setValueOfGetValue (C : Context) (this : ConstantInt) :
    Except Fatal ConstantInt :=
  this.setValue C this.getValue

/-- A number that tells the register names of the table apart: the characters of
the name read as digits in base 256.  It serves to compare names by
arithmetic. -/
def TargetX86.nameCode (s : String) : Nat :=
  s.data.foldl (fun h c => h * 256 + c.toNat) 0

/-! # Properties -/

/-! ## The width table -/

/-- In a table whose mapped pointers are all null, a key is absent or mapped to
the null pointer. -/
theorem lookup_of_all_null (l : List (Nat × Option TypeRef)) (k : Nat)
    (hl : ∀ p ∈ l, p.2 = none) : l.lookup k = none ∨ l.lookup k = some none := by
  induction l with
  | nil => left; rfl
  | cons a t ih =>
    obtain ⟨a1, a2⟩ := a
    have ha : a2 = none := hl (a1, a2) (List.mem_cons_self _ _)
    have ht : ∀ p ∈ t, p.2 = none := fun p hp => hl p (List.mem_cons_of_mem _ hp)
    by_cases hk : k = a1
    · right
      subst hk
      simp [List.lookup, ha]
    · have hb : (k == a1) = false := by simpa using hk
      simp only [List.lookup, hb]
      exact ih ht

/-- The call `IntegerType::get` leaves every mapped pointer of the width table
null when they all were: the only write is the null pointer `operator[]`
inserts. -/
theorem IntegerType.get_table_null (C : Context) (NumBits : Nat)
    (hC : ∀ p ∈ C.mImpl.mIntegerTypes, p.2 = none) :
    ∀ p ∈ (IntegerType.get C NumBits).2.mImpl.mIntegerTypes, p.2 = none := by
  unfold IntegerType.get
  cases hb : IntegerType.getBuiltin C NumBits with
  | some t => simpa using hC
  | none =>
    simp only [IntegerType.getFromTable, Context.indexIntegerTypes]
    cases hl : C.mImpl.mIntegerTypes.lookup NumBits with
    | none =>
      intro p hp
      simp only [Context.operatorNew, List.mem_append, List.mem_singleton] at hp
      rcases hp with hp | hp
      · exact hC p hp
      · rw [hp]
    | some e =>
      cases e with
      | none =>
        intro p hp
        simp only [Context.operatorNew] at hp
        exact hC p hp
      | some r => simpa using hC

/-- The call `PointerType::get` does not touch the width table. -/
theorem PointerType.get_table (C C1 : Context) (E P : TypeRef)
    (h : PointerType.get C E = .ok (P, C1)) :
    C1.mImpl.mIntegerTypes = C.mImpl.mIntegerTypes := by
  unfold PointerType.get ContextImpl.getPointerType at h
  cases hl : C.mImpl.mPointerTypes.lookup E with
  | some e =>
    rw [hl] at h
    simp only [Except.ok.injEq, Prod.mk.injEq] at h
    rw [← h.2]
  | none =>
    rw [hl] at h
    cases ht : C.typeAt E with
    | none => rw [ht] at h; simp at h
    | some T =>
      rw [ht] at h
      simp only [PointerType.ctor, ht, Context.operatorNew, Except.ok.injEq,
        Prod.mk.injEq] at h
      rw [← h.2]

/-- On a reachable context every mapped pointer of the width table is null. -/
theorem Context.Reachable.table_null {C : Context} (hC : C.Reachable) :
    ∀ p ∈ C.mImpl.mIntegerTypes, p.2 = none := by
  induction hC with
  | create mode => intro p hp; simp [Context.create] at hp
  | integerGet NumBits _ ih => exact IntegerType.get_table_null _ NumBits ih
  | pointerGet E P _ hget ih =>
    rw [PointerType.get_table _ _ E P hget]
    exact ih

/-- A request that reaches the table on a context whose mapped pointers are all
null allocates: the returned pointer is the fresh address. -/
theorem IntegerType.getFromTable_fresh (C : Context) (NumBits : Nat)
    (hC : ∀ p ∈ C.mImpl.mIntegerTypes, p.2 = none) :
    (IntegerType.getFromTable C NumBits).1 = TypeRef.allocated C.mImpl.allocated.length := by
  simp only [IntegerType.getFromTable, Context.indexIntegerTypes]
  rcases lookup_of_all_null _ NumBits hC with hl | hl <;> rw [hl] <;> rfl

/-! ## Uniquing of integer types -/

/-- C1 (fails at width 8): `IntegerType::get` hands out the context's singleton,
without changing the context, for the widths 1, 16, 32, 64 and 128.  For width 8
the branch that returns `getInt8Ty` is guarded by a second `NumBits == 1`, so the
request falls through to the table: on a new context it returns a newly
constructed object that is not the `getInt8Ty` singleton, and a second request
returns yet another object. -/
theorem IntegerType.get_width8_not_singleton (mode : Mode) :
    (∀ C : Context,
      IntegerType.get C 1 = (IRType.getInt1Ty C, C) ∧
      IntegerType.get C 16 = (IRType.getInt16Ty C, C) ∧
      IntegerType.get C 32 = (IRType.getInt32Ty C, C) ∧
      IntegerType.get C 64 = (IRType.getInt64Ty C, C) ∧
      IntegerType.get C 128 = (IRType.getInt128Ty C, C)) ∧
    (IntegerType.get (Context.create mode) 8).1 ≠ IRType.getInt8Ty (Context.create mode) ∧
    (IntegerType.get (IntegerType.get (Context.create mode) 8).2 8).1 ≠
      (IntegerType.get (Context.create mode) 8).1 := by
  refine ⟨fun C => ⟨rfl, rfl, rfl, rfl, rfl⟩, ?_, ?_⟩ <;> cases mode <;> decide

/-- C2 (fails): on a new context the first `IntegerType::get(ctx, 256)` constructs
an integer type named `i256`, but the pointer is assigned to the local copy
`Entry` only: the table entry for 256 stays null, and the second request
constructs and returns a different object. -/
theorem IntegerType.get_width256_not_cached (mode : Mode) :
    (IntegerType.get (Context.create mode) 256).1 = TypeRef.allocated 0 ∧
    (IntegerType.get (Context.create mode) 256).2.typeAt (TypeRef.allocated 0) =
      some (IntegerType.ctor "i256" 256) ∧
    (IntegerType.get (Context.create mode) 256).2.mImpl.mIntegerTypes.lookup 256 =
      some none ∧
    (IntegerType.get (IntegerType.get (Context.create mode) 256).2 256).1 =
      TypeRef.allocated 1 ∧
    (IntegerType.get (IntegerType.get (Context.create mode) 256).2 256).1 ≠
      (IntegerType.get (Context.create mode) 256).1 := by
  refine ⟨?_, ?_, ?_, ?_, ?_⟩ <;> cases mode <;> first | rfl | decide

/-- C3: on every reachable context the six pointers returned by
`IntegerType::get` for the widths 1, 8, 16, 32, 64 and 128 are pairwise
distinct. -/
theorem IntegerType.get_builtin_widths_distinct (C : Context) (hC : C.Reachable) :
    (IntegerType.getBuiltinWidths C).Nodup := by
  have h8 : (IntegerType.get C 8).1 = TypeRef.allocated C.mImpl.allocated.length :=
    IntegerType.getFromTable_fresh C 8 hC.table_null
  have hlist : IntegerType.getBuiltinWidths C =
      [TypeRef.mInt1Ty, (IntegerType.get C 8).1, TypeRef.mInt16Ty, TypeRef.mInt32Ty,
        TypeRef.mInt64Ty, TypeRef.mInt128Ty] := rfl
  rw [hlist, h8]
  simp

/-- Witness for C3: the new 64-bit context. -/
theorem IntegerType.get_builtin_widths_distinct_witness :
    (Context.create Mode.Mode64).Reachable ∧
    (IntegerType.getBuiltinWidths (Context.create Mode.Mode64)).Nodup :=
  ⟨Context.Reachable.create Mode.Mode64,
   IntegerType.get_builtin_widths_distinct (Context.create Mode.Mode64)
     (Context.Reachable.create Mode.Mode64)⟩

/-! ## Canonicalization of integer constants -/

/-- The width of a constant depends on its type pointer only. -/
theorem ConstantInt.getBitWidth_congr (C : Context) (a b : ConstantInt)
    (h : a.mType = b.mType) : a.getBitWidth C = b.getBitWidth C := by
  simp only [ConstantInt.getBitWidth, Value.getValueBits, h]

/-- The member `user_insert` leaves the type pointer alone. -/
theorem Value.user_insert_mType (v : Value) (U : ValueRef) :
    (v.user_insert U).mType = v.mType := by
  unfold Value.user_insert
  split <;> rfl

/-- C4: for a constant of bit-width 8, 16, 32 or 64 and a 64-bit value `v`,
`setValue(v)` succeeds and the payload read back by `getValue` is
`v mod 2 ^ w`. -/
theorem ConstantInt.setValue_truncates (C : Context) (this : ConstantInt) (v w : Nat)
    (hw : this.getBitWidth C = .ok w) (hmem : w = 8 ∨ w = 16 ∨ w = 32 ∨ w = 64)
    (_hv : v < 2 ^ 64) :
    Except.map ConstantInt.getValue (this.setValue C v) = .ok (v % 2 ^ w) := by
  unfold ConstantInt.setValue
  rw [hw]
  rcases hmem with h | h | h | h <;> subst h <;>
    simp only [Except.map, ConstantInt.getValue, if_true, if_false, OfNat.ofNat_ne_one,
      Nat.reduceEqDiff, Except.ok.injEq] <;> norm_num <;> omega

/-- Witness for C4: width 8 and `v = 300` give 44. -/
theorem ConstantInt.setValue_truncates_witness :
    (ConstantInt.getBitWidth (Context.create Mode.Mode64)
        { toValue := Value.ctor (some TypeRef.mInt8Ty) "c", mVal := 0 } = .ok 8) ∧
    (8 = 8 ∨ 8 = 16 ∨ 8 = 32 ∨ 8 = 64) ∧ 300 < 2 ^ 64 ∧
    Except.map ConstantInt.getValue
      (ConstantInt.setValue (Context.create Mode.Mode64)
        { toValue := Value.ctor (some TypeRef.mInt8Ty) "c", mVal := 0 } 300) =
      .ok (300 % 2 ^ 8) ∧
    300 % 2 ^ 8 = 44 :=
  ⟨rfl, Or.inl rfl, by norm_num,
   ConstantInt.setValue_truncates (Context.create Mode.Mode64)
     { toValue := Value.ctor (some TypeRef.mInt8Ty) "c", mVal := 0 } 300 8 rfl (Or.inl rfl)
     (by norm_num),
   by norm_num⟩

/-- C5: for a constant of bit-width 1 and a 64-bit value `v`, `setValue(v)`
succeeds and the payload is 1 when `v` is not zero and 0 when it is. -/
theorem ConstantInt.setValue_bool (C : Context) (this : ConstantInt) (v : Nat)
    (hw : this.getBitWidth C = .ok 1) (_hv : v < 2 ^ 64) :
    Except.map ConstantInt.getValue (this.setValue C v) = .ok (if v = 0 then 0 else 1) := by
  unfold ConstantInt.setValue
  rw [hw]
  by_cases h : v = 0 <;> simp [Except.map, ConstantInt.getValue, h]

/-- Witness for C5: width 1 and `v = 5` give 1. -/
theorem ConstantInt.setValue_bool_witness :
    (ConstantInt.getBitWidth (Context.create Mode.Mode64)
        { toValue := Value.ctor (some TypeRef.mInt1Ty) "c", mVal := 0 } = .ok 1) ∧
    5 < 2 ^ 64 ∧
    Except.map ConstantInt.getValue
      (ConstantInt.setValue (Context.create Mode.Mode64)
        { toValue := Value.ctor (some TypeRef.mInt1Ty) "c", mVal := 0 } 5) =
      .ok (if 5 = 0 then 0 else 1) ∧
    (if 5 = 0 then 0 else 1) = 1 :=
  ⟨rfl, by norm_num,
   ConstantInt.setValue_bool (Context.create Mode.Mode64)
     { toValue := Value.ctor (some TypeRef.mInt1Ty) "c", mVal := 0 } 5 rfl (by norm_num),
   rfl⟩

/-- C6: for a constant whose bit-width is `w`, `setValue(v)` ends in
`uir_unreachable` exactly when `w` is none of 1, 8, 16, 32, 64, and it returns
normally for each of these five widths. -/
theorem ConstantInt.setValue_fatal_iff (C : Context) (this : ConstantInt) (v w : Nat)
    (hw : this.getBitWidth C = .ok w) :
    (this.setValue C v = uir_unreachable "Unknown BitWidth in ConstantInt::setValue" ↔
      ¬ (w = 1 ∨ w = 8 ∨ w = 16 ∨ w = 32 ∨ w = 64)) ∧
    ((w = 1 ∨ w = 8 ∨ w = 16 ∨ w = 32 ∨ w = 64) → (this.setValue C v).toBool = true) := by
  unfold ConstantInt.setValue uir_unreachable
  rw [hw]
  by_cases h1 : w = 1
  · subst h1
    by_cases hv : v = 0 <;> simp [hv, Except.toBool]
  by_cases h8 : w = 8
  · subst h8; simp [Except.toBool]
  by_cases h16 : w = 16
  · subst h16; simp [Except.toBool]
  by_cases h32 : w = 32
  · subst h32; simp [Except.toBool]
  by_cases h64 : w = 64
  · subst h64; simp [Except.toBool]
  simp [h1, h8, h16, h32, h64]

/-- Witness for C6: a constant of the built-in 128-bit type. -/
theorem ConstantInt.setValue_fatal_iff_witness :
    (ConstantInt.getBitWidth (Context.create Mode.Mode64)
        { toValue := Value.ctor (some TypeRef.mInt128Ty) "c", mVal := 0 } = .ok 128) ∧
    ((ConstantInt.setValue (Context.create Mode.Mode64)
        { toValue := Value.ctor (some TypeRef.mInt128Ty) "c", mVal := 0 } 7 =
        uir_unreachable "Unknown BitWidth in ConstantInt::setValue" ↔
      ¬ (128 = 1 ∨ 128 = 8 ∨ 128 = 16 ∨ 128 = 32 ∨ 128 = 64)) ∧
     ((128 = 1 ∨ 128 = 8 ∨ 128 = 16 ∨ 128 = 32 ∨ 128 = 64) →
      (ConstantInt.setValue (Context.create Mode.Mode64)
        { toValue := Value.ctor (some TypeRef.mInt128Ty) "c", mVal := 0 } 7).toBool = true)) :=
  ⟨rfl,
   ConstantInt.setValue_fatal_iff (Context.create Mode.Mode64)
     { toValue := Value.ctor (some TypeRef.mInt128Ty) "c", mVal := 0 } 7 128 rfl⟩

/-! ## The canonical-payload invariant -/

/-- A constant returned by `setValue` is canonical. -/
theorem ConstantInt.setValue_canonical (C : Context) (this c : ConstantInt) (v : Nat)
    (h : this.setValue C v = .ok c) : c.Canonical C := by
  unfold ConstantInt.setValue at h
  cases hbw : this.getBitWidth C with
  | error e => rw [hbw] at h; simp at h
  | ok w =>
    rw [hbw] at h
    have key : ∀ n : Nat, n < 2 ^ w →
        ({ this with mVal := n } : ConstantInt).Canonical C := by
      intro n hn
      have hc : ({ this with mVal := n } : ConstantInt).getBitWidth C = .ok w := by
        rw [← hbw]
        exact ConstantInt.getBitWidth_congr C _ _ rfl
      simp only [ConstantInt.Canonical, hc]
      exact hn
    simp only [uir_unreachable] at h
    split_ifs at h with h1 hv h8 h16 h32 h64 <;>
      first
      | (simp at h; done)
      | (simp only [Except.ok.injEq] at h
         subst h
         apply key
         subst_vars
         norm_num
         try omega)

/-- One mutation that does not narrow the constant keeps the payload canonical. -/
theorem ConstantInt.mutate_canonical (C : Context) (this next : ConstantInt) (m : Mutation)
    (hcan : this.Canonical C) (hadm : this.admits C m = true)
    (hstep : this.mutate C m = .ok next) : next.Canonical C := by
  have keep : ∀ c : ConstantInt, c.mType = this.mType → c.mVal = this.mVal →
      c.Canonical C := by
    intro c ht hv
    have hb := ConstantInt.getBitWidth_congr C c this ht
    unfold ConstantInt.Canonical at hcan ⊢
    rw [hb, hv]
    exact hcan
  cases m with
  | setValue Val => exact ConstantInt.setValue_canonical C this next Val hstep
  | setType Ty =>
    simp only [ConstantInt.mutate, Except.ok.injEq] at hstep
    subst hstep
    simp only [ConstantInt.admits] at hadm
    unfold ConstantInt.Canonical at hcan ⊢
    cases hw : this.getBitWidth C with
    | error e => rw [hw] at hcan; exact hcan.elim
    | ok w =>
      rw [hw] at hcan hadm
      cases hw1 : (this.toValue.setType Ty).getValueBits C with
      | error e => rw [hw1] at hadm; simp at hadm
      | ok w1 =>
        rw [hw1] at hadm
        have hle : w ≤ w1 := by simpa using hadm
        have hb : ConstantInt.getBitWidth C { this with toValue := this.toValue.setType Ty } =
            .ok w1 := hw1
        rw [hb]
        exact lt_of_lt_of_le hcan (Nat.pow_le_pow_right (by norm_num) hle)
  | setName n =>
    simp only [ConstantInt.mutate, Except.ok.injEq] at hstep
    subst hstep
    exact keep _ rfl rfl
  | user_insert U =>
    simp only [ConstantInt.mutate, Except.ok.injEq] at hstep
    subst hstep
    exact keep _ (Value.user_insert_mType _ U) rfl
  | user_erase U =>
    simp only [ConstantInt.mutate, Except.ok.injEq] at hstep
    subst hstep
    exact keep _ rfl rfl
  | user_clear =>
    simp only [ConstantInt.mutate, Except.ok.injEq] at hstep
    subst hstep
    exact keep _ rfl rfl

/-- A sequence of mutations none of which narrows the constant keeps the payload
canonical. -/
theorem ConstantInt.mutateAll_canonical (C : Context) (ms : List Mutation) :
    ∀ c0 c : ConstantInt, c0.Canonical C → c0.neverNarrows C ms = true →
      c0.mutateAll C ms = .ok c → c.Canonical C := by
  induction ms with
  | nil =>
    intro c0 c hcan _ hrun
    simp only [ConstantInt.mutateAll, Except.ok.injEq] at hrun
    subst hrun
    exact hcan
  | cons m ms ih =>
    intro c0 c hcan hnn hrun
    simp only [ConstantInt.mutateAll] at hrun
    simp only [ConstantInt.neverNarrows, Bool.and_eq_true] at hnn
    cases hstep : c0.mutate C m with
    | error e => rw [hstep] at hrun; simp at hrun
    | ok next =>
      rw [hstep] at hrun hnn
      exact ih next c (ConstantInt.mutate_canonical C c0 next m hcan hnn.1 hstep) hnn.2 hrun

/-- C7 (as stated, refuted): it is not the case that every `ConstantInt` reached by
construction followed by public mutations has a canonical payload.  A 32-bit
constant built from `0xFFFFFFFF` and rebound with `setType` to the 8-bit type
keeps the payload `0xFFFFFFFF` at declared width 8. -/
theorem ConstantInt.canonical_not_invariant :
    ¬ ∀ (C : Context) (Ty : Option TypeRef) (v g : Nat) (ms : List Mutation)
        (c0 c : ConstantInt),
        ConstantInt.ctor C Ty v g = .ok c0 → c0.mutateAll C ms = .ok c → c.Canonical C := by
  intro h
  have hc := h (Context.create Mode.Mode64) (some TypeRef.mInt32Ty) 0xFFFFFFFF 0
    [Mutation.setType (some TypeRef.mInt8Ty)]
    { toValue := Value.ctor (some TypeRef.mInt32Ty) "4294967295", mVal := 0xFFFFFFFF }
    { toValue := Value.ctor (some TypeRef.mInt8Ty) "4294967295", mVal := 0xFFFFFFFF }
    rfl rfl
  revert hc
  decide

/-- C7 (amended): a `ConstantInt` reached by construction followed by a sequence
of `setValue`, `setName`, user-set operations and `setType` calls that never
rebind to a narrower type has a defined bit-width `w` and a payload below
`2 ^ w`. -/
theorem ConstantInt.canonical_invariant (C : Context) (Ty : Option TypeRef) (v g : Nat)
    (ms : List Mutation) (c0 c : ConstantInt)
    (hctor : ConstantInt.ctor C Ty v g = .ok c0)
    (hnn : c0.neverNarrows C ms = true)
    (hrun : c0.mutateAll C ms = .ok c) : c.Canonical C :=
  ConstantInt.mutateAll_canonical C ms c0 c
    (ConstantInt.setValue_canonical C _ c0 v hctor) hnn hrun

/-- Witness for C7 (amended): an 8-bit constant built from 300, widened to 32
bits, renamed, given a user and set to 70000. -/
theorem ConstantInt.canonical_invariant_witness :
    (ConstantInt.ctor (Context.create Mode.Mode64) (some TypeRef.mInt8Ty) 300 0 =
      .ok { toValue := Value.ctor (some TypeRef.mInt8Ty) "300", mVal := 44 }) ∧
    (ConstantInt.neverNarrows (Context.create Mode.Mode64)
      { toValue := Value.ctor (some TypeRef.mInt8Ty) "300", mVal := 44 }
      [Mutation.setType (some TypeRef.mInt32Ty), Mutation.setName "k",
        Mutation.user_insert 3, Mutation.setValue 70000] = true) ∧
    (ConstantInt.mutateAll (Context.create Mode.Mode64)
      { toValue := Value.ctor (some TypeRef.mInt8Ty) "300", mVal := 44 }
      [Mutation.setType (some TypeRef.mInt32Ty), Mutation.setName "k",
        Mutation.user_insert 3, Mutation.setValue 70000] =
      .ok { toValue := { mType := some TypeRef.mInt32Ty, mValueName := "k", mUsers := [3] },
            mVal := 70000 }) ∧
    ConstantInt.Canonical (Context.create Mode.Mode64)
      { toValue := { mType := some TypeRef.mInt32Ty, mValueName := "k", mUsers := [3] },
        mVal := 70000 } :=
  ⟨rfl, rfl, rfl,
   ConstantInt.canonical_invariant (Context.create Mode.Mode64) (some TypeRef.mInt8Ty) 300 0
     [Mutation.setType (some TypeRef.mInt32Ty), Mutation.setName "k",
       Mutation.user_insert 3, Mutation.setValue 70000]
     { toValue := Value.ctor (some TypeRef.mInt8Ty) "300", mVal := 44 }
     { toValue := { mType := some TypeRef.mInt32Ty, mValueName := "k", mUsers := [3] },
       mVal := 70000 }
     rfl rfl rfl⟩

/-! ## Replacing all uses -/

/-- Reading an object after a member function has been applied at an address. -/
theorem lookup_modifyObject (objs : List (ValueRef × Value)) (r r1 : ValueRef)
    (f : Value → Value) :
    (modifyObject objs r1 f).lookup r =
      if r = r1 then (objs.lookup r).map f else objs.lookup r := by
  induction objs with
  | nil => simp [modifyObject]
  | cons a t ih =>
    obtain ⟨k, v⟩ := a
    by_cases hk : k = r1
    · have ht : modifyObject ((k, v) :: t) r1 f = (k, f v) :: modifyObject t r1 f := by
        simp [modifyObject, hk]
      rw [ht]
      by_cases hr : r = k
      · subst hr
        subst hk
        simp [List.lookup]
      · have hb : (r == k) = false := by simpa using hr
        simp only [List.lookup, hb]
        exact ih
    · have ht : modifyObject ((k, v) :: t) r1 f = (k, v) :: modifyObject t r1 f := by
        simp [modifyObject, hk]
      rw [ht]
      by_cases hr : r = k
      · subst hr
        simp [List.lookup, hk]
      · have hb : (r == k) = false := by simpa using hr
        simp only [List.lookup, hb]
        exact ih

/-- After a migrating user has run, it is no longer in the user set of `From`. -/
theorem User.migrate_usersOf_from (h : Heap) (U From To : ValueRef) (rest : List ValueRef)
    (hne : To ≠ From) (husers : h.usersOf From = .ok (U :: rest)) :
    (User.replaceUsesOfWith User.migrate U From To h).usersOf From = .ok rest := by
  unfold Heap.usersOf at husers ⊢
  cases hl : h.objects.lookup From with
  | none => rw [hl] at husers; simp at husers
  | some v =>
    rw [hl] at husers
    simp only [Except.ok.injEq] at husers
    simp only [User.replaceUsesOfWith, User.migrate, lookup_modifyObject, hl,
      if_neg (Ne.symm hne), if_true, Option.map_some', Value.user_erase, husers]
    simp

/-- C8 (fails for every non-empty user set): when each user migrates its edge as
the collaboration contract expects, the first round of the loop of
`Constant::replaceAllUsesWith` erases the element the loop iterator designates,
and the increment that follows uses an invalidated iterator: the call has no
defined result instead of leaving `Old` without users. -/
theorem Constant.replaceAllUsesWith_migrate_invalid (fuel : Nat) (Old New U : ValueRef)
    (rest : List ValueRef) (h : Heap) (hne : New ≠ Old)
    (husers : h.usersOf Old = .ok (U :: rest)) (hnodup : (U :: rest).Nodup) :
    Constant.replaceAllUsesWith User.migrate (fuel + 1) Old New h =
      .error Fatal.invalidIterator := by
  have hU : ¬ U ∈ rest := (List.nodup_cons.mp hnodup).1
  unfold Constant.replaceAllUsesWith
  rw [if_neg hne, husers]
  simp only [List.head?_cons, Constant.replaceAllUsesWithLoop]
  rw [User.migrate_usersOf_from h U Old New rest hne husers]
  simp [hU]

/-- Witness for C8: `Old` at address 1 with the single user 10, `New` at address 2
with no user. -/
theorem Constant.replaceAllUsesWith_migrate_invalid_witness :
    (2 : ValueRef) ≠ 1 ∧
    Heap.usersOf { objects := [(1, Constant.ctor none "old" |>.user_insert 10),
                               (2, Constant.ctor none "new")],
                   requests := [] } 1 = .ok [10] ∧
    ([10] : List ValueRef).Nodup ∧
    Constant.replaceAllUsesWith User.migrate (0 + 1) 1 2
      { objects := [(1, Constant.ctor none "old" |>.user_insert 10),
                    (2, Constant.ctor none "new")],
        requests := [] } = .error Fatal.invalidIterator :=
  ⟨by decide, rfl, by decide,
   Constant.replaceAllUsesWith_migrate_invalid 0 1 2 10 []
     { objects := [(1, Constant.ctor none "old" |>.user_insert 10),
                   (2, Constant.ctor none "new")],
       requests := [] } (by decide) rfl (by decide)⟩

/-- C9: `V->replaceAllUsesWith(V)` on a `Constant` returns at once: every object,
every user set and the record of requests are as before, whatever the users
would do when asked. -/
theorem Constant.replaceAllUsesWith_self (impl : Overriders) (fuel : Nat) (this : ValueRef)
    (h : Heap) : Constant.replaceAllUsesWith impl fuel this this h = .ok h := by
  simp [Constant.replaceAllUsesWith]

/-! ## Pointer types -/

/-- The constructor of `PointerType` records the element type it is given. -/
theorem PointerType.ctor_mElementType (C : Context) (E : TypeRef) (name : String)
    (obj : IRType) (h : PointerType.ctor C E name = .ok obj) :
    obj.mElementType = some E := by
  unfold PointerType.ctor at h
  cases hE : C.typeAt E with
  | none => rw [hE] at h; simp at h
  | some T =>
    rw [hE] at h
    simp only [Except.ok.injEq] at h
    rw [← h]

/-- C10: a pointer type `P` constructed over the element type `E` reports the
mode bits of its context from `getPointerBits`, whatever `E` is, and the
bit-width of `E` from `getElementTypeBits`. -/
theorem PointerType.bits_independent (C0 C : Context) (P E : TypeRef) (name : String)
    (obj T : IRType) (hctor : PointerType.ctor C0 E name = .ok obj)
    (hP : C.typeAt P = some obj) (hE : C.typeAt E = some T) :
    PointerType.getPointerBits C P = .ok C.getModeBits ∧
    PointerType.getElementTypeBits C P = .ok T.getTypeBits := by
  have hover := PointerType.ctor_mElementType C0 E name obj hctor
  constructor
  · simp only [PointerType.getPointerBits, hP]
  · simp only [PointerType.getElementTypeBits, hP, hover, hE]

/-- Witness for C10: the pointer to the 8-bit integer type of a 64-bit context
reports 64 pointer bits and 8 element bits. -/
theorem PointerType.bits_independent_witness :
    PointerType.get (Context.create Mode.Mode64) (IRType.getInt8Ty (Context.create Mode.Mode64)) =
      .ok (TypeRef.allocated 0, PointerType.int8PointerContext) ∧
    PointerType.ctor (Context.create Mode.Mode64) TypeRef.mInt8Ty "i8*" =
      .ok PointerType.int8Pointer ∧
    PointerType.int8PointerContext.typeAt (TypeRef.allocated 0) =
      some PointerType.int8Pointer ∧
    PointerType.int8PointerContext.typeAt TypeRef.mInt8Ty = some (IntegerType.ctor "i8" 8) ∧
    (PointerType.getPointerBits PointerType.int8PointerContext (TypeRef.allocated 0) =
        .ok PointerType.int8PointerContext.getModeBits ∧
      PointerType.getElementTypeBits PointerType.int8PointerContext (TypeRef.allocated 0) =
        .ok (IntegerType.ctor "i8" 8).getTypeBits) ∧
    PointerType.int8PointerContext.getModeBits = 64 ∧
    (IntegerType.ctor "i8" 8).getTypeBits = 8 :=
  ⟨rfl, rfl, rfl, rfl,
   PointerType.bits_independent (Context.create Mode.Mode64) PointerType.int8PointerContext
     (TypeRef.allocated 0) TypeRef.mInt8Ty "i8*" PointerType.int8Pointer
     (IntegerType.ctor "i8" 8) rfl rfl rfl,
   rfl, rfl⟩

/-- The example of pointer width independence: on a new context of either mode,
the pointers to the 8-bit and to the 64-bit integer type report the same pointer
bits, the mode bits, and the element bits 8 and 64. -/
theorem PointerType.int8_int64_pointers (mode : Mode) :
    ∃ (P8 P64 : TypeRef) (C1 C2 : Context),
      PointerType.get (Context.create mode) (IRType.getInt8Ty (Context.create mode)) =
        .ok (P8, C1) ∧
      PointerType.get C1 (IRType.getInt64Ty C1) = .ok (P64, C2) ∧
      P8 ≠ P64 ∧
      PointerType.getPointerBits C2 P8 = .ok C2.getModeBits ∧
      PointerType.getPointerBits C2 P64 = .ok C2.getModeBits ∧
      PointerType.getElementTypeBits C2 P8 = .ok 8 ∧
      PointerType.getElementTypeBits C2 P64 = .ok 64 := by
  cases mode
  all_goals
    exact ⟨TypeRef.allocated 0, TypeRef.allocated 1, _, _, rfl, rfl, by decide, rfl, rfl,
      rfl, rfl⟩

/-! ## The 64-bit pointer guard -/

/-- The call `PointerType::get(C, getInt64Ty(C))` returns normally: the element
type is a member of the context. -/
theorem PointerType.get_int64_ok (C : Context) :
    (PointerType.get C (IRType.getInt64Ty C)).toBool = true := by
  unfold PointerType.get ContextImpl.getPointerType
  cases hl : C.mImpl.mPointerTypes.lookup (IRType.getInt64Ty C) with
  | some e => rfl
  | none => rfl

/-- C11: `Type::getInt64PtrTy` ends in `uir_unreachable` exactly when the context
is in 32-bit mode, where it does not return normally; in 64-bit mode it returns
normally, with the result of `PointerType::get(C, getInt64Ty(C))`. -/
theorem IRType.getInt64PtrTy_guard (C : Context) :
    (IRType.getInt64PtrTy C = uir_unreachable "Mode32 has not Int64PtrTy" ↔
      C.getMode = Mode.Mode32) ∧
    ((IRType.getInt64PtrTy C).toBool = false ↔ C.getMode = Mode.Mode32) ∧
    (C.getMode = Mode.Mode64 →
      IRType.getInt64PtrTy C = PointerType.get C (IRType.getInt64Ty C)) := by
  have hok := PointerType.get_int64_ok C
  unfold IRType.getInt64PtrTy IRType.getPointerTo
  cases hm : C.getMode with
  | Mode32 => simp [uir_unreachable, Except.toBool]
  | Mode64 =>
    simp only [reduceCtorEq, if_false, iff_false, true_implies, and_true]
    constructor
    · intro h
      rw [h] at hok
      simp [uir_unreachable, Except.toBool] at hok
    · rw [hok]
      simp

/-! ## Uniquing of pointer types -/

/-- What `PointerType::get` does on a hit and on a miss. -/
theorem PointerType.get_cases (C C1 : Context) (E P : TypeRef)
    (h : PointerType.get C E = .ok (P, C1)) :
    (C.mImpl.mPointerTypes.lookup E = some P ∧ C1 = C) ∨
    (C.mImpl.mPointerTypes.lookup E = none ∧
      P = TypeRef.allocated C.mImpl.allocated.length ∧
      C1.mImpl.mPointerTypes = C.mImpl.mPointerTypes ++ [(E, P)] ∧
      C1.mImpl.allocated.length = C.mImpl.allocated.length + 1) := by
  unfold PointerType.get ContextImpl.getPointerType at h
  cases hl : C.mImpl.mPointerTypes.lookup E with
  | some e =>
    rw [hl] at h
    simp only [Except.ok.injEq, Prod.mk.injEq] at h
    left
    exact ⟨by rw [h.1], h.2.symm⟩
  | none =>
    rw [hl] at h
    right
    cases ht : C.typeAt E with
    | none => rw [ht] at h; simp at h
    | some T =>
      rw [ht] at h
      simp only [PointerType.ctor, ht, Context.operatorNew, Except.ok.injEq,
        Prod.mk.injEq] at h
      obtain ⟨hP, hC1⟩ := h
      subst hP
      subst hC1
      simp

/-- After `PointerType::get(C, E)` has returned `P`, the table maps `E` to `P`. -/
theorem PointerType.get_registers (C C1 : Context) (E P : TypeRef)
    (h : PointerType.get C E = .ok (P, C1)) :
    C1.mImpl.mPointerTypes.lookup E = some P := by
  rcases PointerType.get_cases C C1 E P h with ⟨hl, hC⟩ | ⟨hl, _, ht, _⟩
  · rw [hC]; exact hl
  · rw [ht, List.lookup_append, hl]
    simp [List.lookup]

/-- A request for a registered element type is a hit: the registered pointer is
returned and the context does not change. -/
theorem PointerType.get_hit (C : Context) (E P : TypeRef)
    (h : C.mImpl.mPointerTypes.lookup E = some P) :
    PointerType.get C E = .ok (P, C) := by
  simp only [PointerType.get, ContextImpl.getPointerType, h]

/-- The call `IntegerType::get` leaves the pointer table alone and frees no
object. -/
theorem IntegerType.get_pointer_table (C : Context) (NumBits : Nat) :
    (IntegerType.get C NumBits).2.mImpl.mPointerTypes = C.mImpl.mPointerTypes ∧
    C.mImpl.allocated.length ≤ (IntegerType.get C NumBits).2.mImpl.allocated.length := by
  unfold IntegerType.get
  cases hb : IntegerType.getBuiltin C NumBits with
  | some t => exact ⟨rfl, le_refl _⟩
  | none =>
    simp only [IntegerType.getFromTable, Context.indexIntegerTypes]
    cases hl : C.mImpl.mIntegerTypes.lookup NumBits with
    | none => simp [Context.operatorNew]
    | some e =>
      cases e with
      | none => simp [Context.operatorNew]
      | some r => exact ⟨rfl, le_refl _⟩

/-- The pointer table of every reachable context is sound. -/
theorem Context.Reachable.pointerTableSound {C : Context} (hC : C.Reachable) :
    C.PointerTableSound := by
  induction hC with
  | create mode =>
    constructor
    · intro E P h; simp [Context.create] at h
    · intro E F P h; simp [Context.create] at h
  | integerGet NumBits _ ih =>
    obtain ⟨ht, hlen⟩ := IntegerType.get_pointer_table _ NumBits
    constructor
    · intro E P h
      rw [ht] at h
      obtain ⟨n, hn, hlt⟩ := ih.1 E P h
      exact ⟨n, hn, lt_of_lt_of_le hlt hlen⟩
    · intro E F P h1 h2
      rw [ht] at h1 h2
      exact ih.2 E F P h1 h2
  | @pointerGet C0 C1 E0 P0 _ hget ih =>
    rcases PointerType.get_cases _ _ E0 P0 hget with ⟨_, hC⟩ | ⟨hl, hP, ht, hlen⟩
    · rw [hC]; exact ih
    · constructor
      · intro E P h
        rw [ht, List.lookup_append] at h
        cases hold : List.lookup E C0.mImpl.mPointerTypes with
        | some Q =>
          rw [hold] at h
          simp only [Option.or_some, Option.some.injEq] at h
          obtain ⟨n, hn, hlt⟩ := ih.1 E Q hold
          exact ⟨n, by rw [← h, hn], by rw [hlen]; exact Nat.lt_succ_of_lt hlt⟩
        | none =>
          rw [hold] at h
          simp only [Option.none_or, List.lookup] at h
          split at h
          · simp only [Option.some.injEq] at h
            exact ⟨_, by rw [← h, hP], by rw [hlen]; exact Nat.lt_succ_self _⟩
          · simp at h
      · intro E F P h1 h2
        rw [ht, List.lookup_append] at h1 h2
        cases hE : List.lookup E C0.mImpl.mPointerTypes with
        | some Q1 =>
          rw [hE] at h1
          simp only [Option.or_some, Option.some.injEq] at h1
          cases hF : List.lookup F C0.mImpl.mPointerTypes with
          | some Q2 =>
            rw [hF] at h2
            simp only [Option.or_some, Option.some.injEq] at h2
            exact ih.2 E F P (by rw [← h1]; exact hE) (by rw [← h2]; exact hF)
          | none =>
            rw [hF] at h2
            simp only [Option.none_or, List.lookup] at h2
            split at h2
            · simp only [Option.some.injEq] at h2
              obtain ⟨n, hn, hlt⟩ := ih.1 E Q1 hE
              rw [← h1, hn, hP] at h2
              simp only [TypeRef.allocated.injEq] at h2
              omega
            · simp at h2
        | none =>
          rw [hE] at h1
          simp only [Option.none_or, List.lookup] at h1
          split at h1
          · rename_i hEeq
            simp only [Option.some.injEq] at h1
            cases hF : List.lookup F C0.mImpl.mPointerTypes with
            | some Q2 =>
              rw [hF] at h2
              simp only [Option.or_some, Option.some.injEq] at h2
              obtain ⟨n, hn, hlt⟩ := ih.1 F Q2 hF
              rw [← h1, hP] at h2
              rw [h2] at hn
              simp only [TypeRef.allocated.injEq] at hn
              omega
            | none =>
              rw [hF] at h2
              simp only [Option.none_or, List.lookup] at h2
              split at h2
              · rename_i hFeq
                have e1 : E = E0 := by simpa using hEeq
                have e2 : F = E0 := by simpa using hFeq
                rw [e1, e2]
              · simp at h2
          · simp at h1

/-- C12: on a reachable context, once `PointerType::get(C, E)` has returned `P`,
every further request for `E`, through `PointerType::get` or through
`E->getPointerTo()`, returns the same `P` without changing the context, also
after a request for another element type `F`; and the pointer type `Q` returned
for `F` is a different object. -/
theorem PointerType.get_uniqued (C C1 C2 : Context) (E F P Q : TypeRef)
    (hC : C.Reachable) (h1 : PointerType.get C E = .ok (P, C1)) (hne : F ≠ E)
    (h2 : PointerType.get C1 F = .ok (Q, C2)) :
    PointerType.get C1 E = .ok (P, C1) ∧
    IRType.getPointerTo C1 E = .ok (P, C1) ∧
    Q ≠ P ∧
    PointerType.get C2 E = .ok (P, C2) := by
  have hreg := PointerType.get_registers C C1 E P h1
  have hsound := (Context.Reachable.pointerGet E P hC h1).pointerTableSound
  have hhit := PointerType.get_hit C1 E P hreg
  refine ⟨hhit, hhit, ?_, ?_⟩
  · rcases PointerType.get_cases C1 C2 F Q h2 with ⟨hl, _⟩ | ⟨_, hQ, _, _⟩
    · intro hQP
      rw [hQP] at hl
      exact hne (hsound.2 F E P hl hreg)
    · obtain ⟨n, hn, hlt⟩ := hsound.1 E P hreg
      rw [hQ, hn]
      intro h
      simp only [TypeRef.allocated.injEq] at h
      omega
  · apply PointerType.get_hit
    rcases PointerType.get_cases C1 C2 F Q h2 with ⟨_, hC2⟩ | ⟨_, _, ht, _⟩
    · rw [hC2]; exact hreg
    · rw [ht, List.lookup_append, hreg]
      rfl

/-- Witness for C12: the pointers to the 8-bit and to the 64-bit integer type on a
new 64-bit context. -/
theorem PointerType.get_uniqued_witness :
    (Context.create Mode.Mode64).Reachable ∧
    PointerType.get (Context.create Mode.Mode64) TypeRef.mInt8Ty =
      .ok (TypeRef.allocated 0, PointerType.int8PointerContext) ∧
    TypeRef.mInt64Ty ≠ TypeRef.mInt8Ty ∧
    PointerType.get PointerType.int8PointerContext TypeRef.mInt64Ty =
      .ok (TypeRef.allocated 1, PointerType.int8Int64PointerContext) ∧
    (PointerType.get PointerType.int8PointerContext TypeRef.mInt8Ty =
        .ok (TypeRef.allocated 0, PointerType.int8PointerContext) ∧
      IRType.getPointerTo PointerType.int8PointerContext TypeRef.mInt8Ty =
        .ok (TypeRef.allocated 0, PointerType.int8PointerContext) ∧
      TypeRef.allocated 1 ≠ TypeRef.allocated 0 ∧
      PointerType.get PointerType.int8Int64PointerContext TypeRef.mInt8Ty =
        .ok (TypeRef.allocated 0, PointerType.int8Int64PointerContext)) :=
  ⟨Context.Reachable.create Mode.Mode64, rfl, by decide, rfl,
   PointerType.get_uniqued (Context.create Mode.Mode64) PointerType.int8PointerContext
     PointerType.int8Int64PointerContext TypeRef.mInt8Ty TypeRef.mInt64Ty
     (TypeRef.allocated 0) (TypeRef.allocated 1)
     (Context.Reachable.create Mode.Mode64) rfl (by decide) rfl⟩

/-! ## Construction and the frame of `setValue` -/

/-- For a supported width, `setValue` returns the receiver with the payload
replaced by the canonical form of the argument and nothing else changed. -/
theorem ConstantInt.setValue_eq (C : Context) (this : ConstantInt) (v w : Nat)
    (hw : this.getBitWidth C = .ok w)
    (hsup : w = 1 ∨ w = 8 ∨ w = 16 ∨ w = 32 ∨ w = 64) :
    this.setValue C v =
      .ok { this with mVal := if w = 1 then (if v = 0 then 0 else 1) else v % 2 ^ w } := by
  unfold ConstantInt.setValue
  rw [hw]
  rcases hsup with h | h | h | h | h <;> subst h
  · by_cases hv : v = 0 <;> simp [hv]
  all_goals
    simp only [OfNat.ofNat_ne_one, Nat.reduceEqDiff, if_true, if_false, Except.ok.injEq,
      ConstantInt.mk.injEq, true_and]
    norm_num
  all_goals omega

/-- C13: a `ConstantInt` constructed from a type of width `w` in 1, 8, 16, 32, 64
and a 64-bit value `v` exists, holds the payload `setValue(v)` stores in any
constant of width `w` (1 or 0 for width 1, `v mod 2 ^ w` otherwise), and reports
`getBitWidth() = w`. -/
theorem ConstantInt.ctor_canonicalizes (C : Context) (T : TypeRef) (obj : IRType)
    (other : ConstantInt) (v g w : Nat)
    (hT : C.typeAt T = some obj) (hbits : obj.getTypeBits = w)
    (hother : other.getBitWidth C = .ok w)
    (hsup : w = 1 ∨ w = 8 ∨ w = 16 ∨ w = 32 ∨ w = 64) (_hv : v < 2 ^ 64) :
    Except.map ConstantInt.getValue (ConstantInt.ctor C (some T) v g) =
      .ok (if w = 1 then (if v = 0 then 0 else 1) else v % 2 ^ w) ∧
    Except.map ConstantInt.getValue (ConstantInt.ctor C (some T) v g) =
      Except.map ConstantInt.getValue (other.setValue C v) ∧
    Except.bind (ConstantInt.ctor C (some T) v g) (ConstantInt.getBitWidth C) = .ok w := by
  have hbase : ConstantInt.getBitWidth C
      { toValue := Constant.ctor (some T) (toString v), mVal := g } = .ok w := by
    simp only [ConstantInt.getBitWidth, Value.getValueBits, Constant.ctor, Value.ctor, hT, hbits]
  unfold ConstantInt.ctor
  rw [ConstantInt.setValue_eq C _ v w hbase hsup, ConstantInt.setValue_eq C other v w hother hsup]
  refine ⟨rfl, rfl, ?_⟩
  simp only [Except.bind]
  rw [← hbase]
  exact ConstantInt.getBitWidth_congr C _ _ rfl

/-- Witness for C13: the 32-bit constant built from 1 reads back 1. -/
theorem ConstantInt.ctor_canonicalizes_witness :
    (Context.create Mode.Mode64).typeAt TypeRef.mInt32Ty = some (IntegerType.ctor "i32" 32) ∧
    (IntegerType.ctor "i32" 32).getTypeBits = 32 ∧
    ConstantInt.getBitWidth (Context.create Mode.Mode64)
      { toValue := Value.ctor (some TypeRef.mInt32Ty) "c", mVal := 9 } = .ok 32 ∧
    (32 = 1 ∨ 32 = 8 ∨ 32 = 16 ∨ 32 = 32 ∨ 32 = 64) ∧ 1 < 2 ^ 64 ∧
    (Except.map ConstantInt.getValue
        (ConstantInt.ctor (Context.create Mode.Mode64) (some TypeRef.mInt32Ty) 1 0) =
        .ok (if 32 = 1 then (if 1 = 0 then 0 else 1) else 1 % 2 ^ 32) ∧
      Except.map ConstantInt.getValue
        (ConstantInt.ctor (Context.create Mode.Mode64) (some TypeRef.mInt32Ty) 1 0) =
        Except.map ConstantInt.getValue
          (ConstantInt.setValue (Context.create Mode.Mode64)
            { toValue := Value.ctor (some TypeRef.mInt32Ty) "c", mVal := 9 } 1) ∧
      Except.bind (ConstantInt.ctor (Context.create Mode.Mode64) (some TypeRef.mInt32Ty) 1 0)
        (ConstantInt.getBitWidth (Context.create Mode.Mode64)) = .ok 32) ∧
    (if 32 = 1 then (if 1 = 0 then 0 else 1) else 1 % 2 ^ 32) = 1 :=
  ⟨rfl, rfl, rfl, by norm_num, by norm_num,
   ConstantInt.ctor_canonicalizes (Context.create Mode.Mode64) TypeRef.mInt32Ty
     (IntegerType.ctor "i32" 32)
     { toValue := Value.ctor (some TypeRef.mInt32Ty) "c", mVal := 9 } 1 0 32
     rfl rfl rfl (by norm_num) (by norm_num),
   by norm_num⟩

/-- C14: for a constant of supported width, `setValue(v)` returns a constant whose
`Value` part (type pointer, name and user set) is the one before the call, and
whose `getBitWidth()` is the width before the call. -/
theorem ConstantInt.setValue_frame (C : Context) (this : ConstantInt) (v w : Nat)
    (hw : this.getBitWidth C = .ok w)
    (hsup : w = 1 ∨ w = 8 ∨ w = 16 ∨ w = 32 ∨ w = 64) :
    Except.map ConstantInt.toValue (this.setValue C v) = .ok this.toValue ∧
    Except.bind (this.setValue C v) (ConstantInt.getBitWidth C) = .ok w := by
  rw [ConstantInt.setValue_eq C this v w hw hsup]
  refine ⟨rfl, ?_⟩
  simp only [Except.bind]
  rw [← hw]
  exact ConstantInt.getBitWidth_congr C _ _ rfl

/-- Witness for C14: the scenario of the test, a 32-bit constant named `1` with a
user, set to 2. -/
theorem ConstantInt.setValue_frame_witness :
    ConstantInt.getBitWidth (Context.create Mode.Mode64)
      { toValue := { mType := some TypeRef.mInt32Ty, mValueName := "1", mUsers := [7] },
        mVal := 1 } = .ok 32 ∧
    (32 = 1 ∨ 32 = 8 ∨ 32 = 16 ∨ 32 = 32 ∨ 32 = 64) ∧
    (Except.map ConstantInt.toValue
        (ConstantInt.setValue (Context.create Mode.Mode64)
          { toValue := { mType := some TypeRef.mInt32Ty, mValueName := "1", mUsers := [7] },
            mVal := 1 } 2) =
        .ok { mType := some TypeRef.mInt32Ty, mValueName := "1", mUsers := [7] } ∧
      Except.bind
        (ConstantInt.setValue (Context.create Mode.Mode64)
          { toValue := { mType := some TypeRef.mInt32Ty, mValueName := "1", mUsers := [7] },
            mVal := 1 } 2)
        (ConstantInt.getBitWidth (Context.create Mode.Mode64)) = .ok 32) :=
  ⟨rfl, by norm_num,
   ConstantInt.setValue_frame (Context.create Mode.Mode64)
     { toValue := { mType := some TypeRef.mInt32Ty, mValueName := "1", mUsers := [7] },
       mVal := 1 } 2 32 rfl (by norm_num)⟩

/-! ## Zero and sign extension -/

/-- C15: for a constant of width `w` in 8, 16, 32, 64 with canonical payload `p`,
`getSExtValue()` returns an integer `s` with `-2 ^ (w - 1) ≤ s < 2 ^ (w - 1)` that
is congruent to `p` modulo `2 ^ w`, the only such integer, and `getZExtValue()`
returns `p`. -/
theorem ConstantInt.getSExtValue_spec (C : Context) (this : ConstantInt) (w : Nat)
    (hw : this.getBitWidth C = .ok w) (hsup : w = 8 ∨ w = 16 ∨ w = 32 ∨ w = 64)
    (hp : this.mVal < 2 ^ w) :
    this.getZExtValue = this.mVal ∧
    ∃ s : Int, this.getSExtValue C = .ok s ∧
      -(2 : Int) ^ (w - 1) ≤ s ∧ s < (2 : Int) ^ (w - 1) ∧
      s ≡ (this.mVal : Int) [ZMOD (2 : Int) ^ w] ∧
      ∀ t : Int, -(2 : Int) ^ (w - 1) ≤ t → t < (2 : Int) ^ (w - 1) →
        t ≡ (this.mVal : Int) [ZMOD (2 : Int) ^ w] → t = s := by
  refine ⟨rfl, ?_⟩
  unfold ConstantInt.getSExtValue
  rw [hw]
  refine ⟨_, rfl, ?_⟩
  simp only [toInt64, Nat.testBit_to_div_mod, Int.ModEq]
  rcases hsup with h | h | h | h <;> subst h <;> norm_num at hp ⊢ <;>
    (split_ifs with hb <;> refine ⟨?_, ?_, ?_, ?_⟩ <;> try (intro t h1 h2 h3)) <;> omega

/-- Witness for C15: width 32 with payload `0xFFFFFFFF` gives -1. -/
theorem ConstantInt.getSExtValue_spec_witness :
    ConstantInt.getBitWidth (Context.create Mode.Mode64)
      { toValue := Value.ctor (some TypeRef.mInt32Ty) "c", mVal := 0xFFFFFFFF } = .ok 32 ∧
    (32 = 8 ∨ 32 = 16 ∨ 32 = 32 ∨ 32 = 64) ∧
    0xFFFFFFFF < 2 ^ 32 ∧
    (ConstantInt.getZExtValue
        { toValue := Value.ctor (some TypeRef.mInt32Ty) "c", mVal := 0xFFFFFFFF } =
        0xFFFFFFFF ∧
      ∃ s : Int,
        ConstantInt.getSExtValue (Context.create Mode.Mode64)
          { toValue := Value.ctor (some TypeRef.mInt32Ty) "c", mVal := 0xFFFFFFFF } = .ok s ∧
        -(2 : Int) ^ (32 - 1) ≤ s ∧ s < (2 : Int) ^ (32 - 1) ∧
        s ≡ ((0xFFFFFFFF : Nat) : Int) [ZMOD (2 : Int) ^ 32] ∧
        ∀ t : Int, -(2 : Int) ^ (32 - 1) ≤ t → t < (2 : Int) ^ (32 - 1) →
          t ≡ ((0xFFFFFFFF : Nat) : Int) [ZMOD (2 : Int) ^ 32] → t = s) ∧
    ConstantInt.getSExtValue (Context.create Mode.Mode64)
      { toValue := Value.ctor (some TypeRef.mInt32Ty) "c", mVal := 0xFFFFFFFF } = .ok (-1) :=
  ⟨rfl, by norm_num, by norm_num,
   ConstantInt.getSExtValue_spec (Context.create Mode.Mode64)
     { toValue := Value.ctor (some TypeRef.mInt32Ty) "c", mVal := 0xFFFFFFFF } 32 rfl
     (by norm_num) (by norm_num),
   rfl⟩

/-! ## Members with an empty body -/

/-- C16: `replaceUsesOfWith(From, To)` as defined by `Value`, by `Constant` and by
`ConstantInt` returns the receiver and the heap as they were: the type, name,
payload and user set of the receiver and the user sets of `From` and `To` are
unchanged, and no request is recorded. -/
theorem replaceUsesOfWith_noop (v : Value) (c : ConstantInt) (From To : ValueRef)
    (h : Heap) :
    Value.replaceUsesOfWith v From To h = (v, h) ∧
    Constant.replaceUsesOfWith v From To h = (v, h) ∧
    ConstantInt.replaceUsesOfWith c From To h = (c, h) ∧
    (ConstantInt.replaceUsesOfWith c From To h).1.mType = c.mType ∧
    (ConstantInt.replaceUsesOfWith c From To h).1.mValueName = c.mValueName ∧
    (ConstantInt.replaceUsesOfWith c From To h).1.mVal = c.mVal ∧
    (ConstantInt.replaceUsesOfWith c From To h).1.mUsers = c.mUsers ∧
    (ConstantInt.replaceUsesOfWith c From To h).2.usersOf From = h.usersOf From ∧
    (ConstantInt.replaceUsesOfWith c From To h).2.usersOf To = h.usersOf To ∧
    (Value.replaceUsesOfWith v From To h).2.usersOf From = h.usersOf From ∧
    (Value.replaceUsesOfWith v From To h).2.usersOf To = h.usersOf To ∧
    (Constant.replaceUsesOfWith v From To h).2.usersOf From = h.usersOf From ∧
    (Constant.replaceUsesOfWith v From To h).2.usersOf To = h.usersOf To :=
  ⟨rfl, rfl, rfl, rfl, rfl, rfl, rfl, rfl, rfl, rfl, rfl, rfl, rfl⟩

/-- C20: `ConstantInt::replaceAllUsesWith(V)` returns the receiver and the heap as
they were for every `V`: the user set is unchanged and no request is recorded.
The generic `Constant::replaceAllUsesWith`, on a constant with the users 10 and
11 and a different `V`, asks both users. -/
theorem ConstantInt.replaceAllUsesWith_noop (c : ConstantInt) (V : ValueRef) (h : Heap) :
    ConstantInt.replaceAllUsesWith c V h = (c, h) ∧
    (ConstantInt.replaceAllUsesWith c V h).1.mUsers = c.mUsers ∧
    (ConstantInt.replaceAllUsesWith c V h).2.requests = h.requests ∧
    Except.map Heap.requests
      (Constant.replaceAllUsesWith (fun _ _ _ objs => objs) 2 1 2
        { objects := [(1, { mType := none, mValueName := "old", mUsers := [10, 11] }),
                      (2, Constant.ctor none "new")],
          requests := [] }) = .ok [(10, 1, 2), (11, 1, 2)] :=
  ⟨rfl, rfl, rfl, rfl⟩

/-! ## The type constructed on a cache miss -/

/-- C17: when a width that the chain of built-in tests does not answer misses the
table, `IntegerType::get` returns a newly allocated object whose kind is
`IntegerTyID` (so `isIntegerTy` holds and the seven other kind predicates do
not), whose `getTypeBits()` is the width and whose name is `i` followed by the
decimal digits of the width. -/
theorem IntegerType.get_constructs (C : Context) (w : Nat)
    (hw : w ≠ 1 ∧ w ≠ 16 ∧ w ≠ 32 ∧ w ≠ 64 ∧ w ≠ 128)
    (hmiss : C.mImpl.mIntegerTypes.lookup w = none ∨
      C.mImpl.mIntegerTypes.lookup w = some none) :
    (IntegerType.get C w).1 = TypeRef.allocated C.mImpl.allocated.length ∧
    (IntegerType.get C w).2.typeAt (IntegerType.get C w).1 =
      some (IntegerType.ctor ("i" ++ toString w) w) ∧
    (IntegerType.ctor ("i" ++ toString w) w).isIntegerTy = true ∧
    (IntegerType.ctor ("i" ++ toString w) w).isVoidTy = false ∧
    (IntegerType.ctor ("i" ++ toString w) w).isFloatTy = false ∧
    (IntegerType.ctor ("i" ++ toString w) w).isDoubleTy = false ∧
    (IntegerType.ctor ("i" ++ toString w) w).isLabelTy = false ∧
    (IntegerType.ctor ("i" ++ toString w) w).isFunctionTy = false ∧
    (IntegerType.ctor ("i" ++ toString w) w).isArrayTy = false ∧
    (IntegerType.ctor ("i" ++ toString w) w).isPointerTy = false ∧
    (IntegerType.ctor ("i" ++ toString w) w).getTypeBits = w ∧
    (IntegerType.ctor ("i" ++ toString w) w).getTypeName =
      "i" ++ (Nat.toDigits 10 w).asString := by
  obtain ⟨h1, h16, h32, h64, h128⟩ := hw
  have hb : IntegerType.getBuiltin C w = none := by
    simp [IntegerType.getBuiltin, h1, h16, h32, h64, h128]
  have hget : IntegerType.get C w = IntegerType.getFromTable C w := by
    simp only [IntegerType.get, hb]
  rw [hget]
  refine ⟨?_, ?_, rfl, rfl, rfl, rfl, rfl, rfl, rfl, rfl, rfl, rfl⟩
  · rcases hmiss with hl | hl <;>
      simp only [IntegerType.getFromTable, Context.indexIntegerTypes, hl, Context.operatorNew]
  · rcases hmiss with hl | hl <;>
      simp only [IntegerType.getFromTable, Context.indexIntegerTypes, hl, Context.operatorNew,
        Context.typeAt, List.getElem?_concat_length]

/-- Witness for C17: width 256 on a new 64-bit context gives the type `i256`. -/
theorem IntegerType.get_constructs_witness :
    ((256 : Nat) ≠ 1 ∧ (256 : Nat) ≠ 16 ∧ (256 : Nat) ≠ 32 ∧ (256 : Nat) ≠ 64 ∧
      (256 : Nat) ≠ 128) ∧
    ((Context.create Mode.Mode64).mImpl.mIntegerTypes.lookup 256 = none ∨
      (Context.create Mode.Mode64).mImpl.mIntegerTypes.lookup 256 = some none) ∧
    ((IntegerType.get (Context.create Mode.Mode64) 256).1 =
        TypeRef.allocated (Context.create Mode.Mode64).mImpl.allocated.length ∧
      (IntegerType.get (Context.create Mode.Mode64) 256).2.typeAt
          (IntegerType.get (Context.create Mode.Mode64) 256).1 =
        some (IntegerType.ctor ("i" ++ toString 256) 256) ∧
      (IntegerType.ctor ("i" ++ toString 256) 256).isIntegerTy = true ∧
      (IntegerType.ctor ("i" ++ toString 256) 256).isVoidTy = false ∧
      (IntegerType.ctor ("i" ++ toString 256) 256).isFloatTy = false ∧
      (IntegerType.ctor ("i" ++ toString 256) 256).isDoubleTy = false ∧
      (IntegerType.ctor ("i" ++ toString 256) 256).isLabelTy = false ∧
      (IntegerType.ctor ("i" ++ toString 256) 256).isFunctionTy = false ∧
      (IntegerType.ctor ("i" ++ toString 256) 256).isArrayTy = false ∧
      (IntegerType.ctor ("i" ++ toString 256) 256).isPointerTy = false ∧
      (IntegerType.ctor ("i" ++ toString 256) 256).getTypeBits = 256 ∧
      (IntegerType.ctor ("i" ++ toString 256) 256).getTypeName =
        "i" ++ (Nat.toDigits 10 256).asString) ∧
    "i" ++ (Nat.toDigits 10 256).asString = "i256" :=
  ⟨by decide, Or.inl rfl,
   IntegerType.get_constructs (Context.create Mode.Mode64) 256 (by decide) (Or.inl rfl),
   by decide⟩

/-! ## The stored size of a pointer type -/

/-- C19: a pointer type constructed over `E` stores, as its own `getTypeBits()`,
the bit-width `E` has when the constructor runs, in either mode; a value whose
type is that pointer type reports this width from `getValueBits()`, while
`getPointerBits()` reports the mode bits of the context. -/
theorem PointerType.ctor_stores_pointee_bits (C0 C : Context) (P E : TypeRef)
    (name : String) (obj T : IRType) (V : Value)
    (hE : C0.typeAt E = some T) (hctor : PointerType.ctor C0 E name = .ok obj)
    (hP : C.typeAt P = some obj) (hV : V.mType = some P) :
    obj.getTypeBits = T.getTypeBits ∧
    obj.isPointerTy = true ∧
    V.getValueBits C = .ok T.getTypeBits ∧
    PointerType.getPointerBits C P = .ok C.getModeBits := by
  unfold PointerType.ctor at hctor
  rw [hE] at hctor
  simp only [Except.ok.injEq] at hctor
  subst hctor
  refine ⟨rfl, rfl, ?_, ?_⟩
  · simp only [Value.getValueBits, hV, hP]
    rfl
  · simp only [PointerType.getPointerBits, hP]

/-- Witness for C19: in a 64-bit context a value whose type is the pointer to the
8-bit integer type reports 8 value bits and 64 pointer bits. -/
theorem PointerType.ctor_stores_pointee_bits_witness :
    (Context.create Mode.Mode64).typeAt TypeRef.mInt8Ty = some (IntegerType.ctor "i8" 8) ∧
    PointerType.ctor (Context.create Mode.Mode64) TypeRef.mInt8Ty "i8*" =
      .ok PointerType.int8Pointer ∧
    PointerType.int8PointerContext.typeAt (TypeRef.allocated 0) =
      some PointerType.int8Pointer ∧
    (Value.ctor (some (TypeRef.allocated 0)) "p").mType = some (TypeRef.allocated 0) ∧
    (PointerType.int8Pointer.getTypeBits = (IntegerType.ctor "i8" 8).getTypeBits ∧
      PointerType.int8Pointer.isPointerTy = true ∧
      (Value.ctor (some (TypeRef.allocated 0)) "p").getValueBits
          PointerType.int8PointerContext =
        .ok (IntegerType.ctor "i8" 8).getTypeBits ∧
      PointerType.getPointerBits PointerType.int8PointerContext (TypeRef.allocated 0) =
        .ok PointerType.int8PointerContext.getModeBits) ∧
    (IntegerType.ctor "i8" 8).getTypeBits = 8 ∧
    PointerType.int8PointerContext.getModeBits = 64 :=
  ⟨rfl, rfl, rfl, rfl,
   PointerType.ctor_stores_pointee_bits (Context.create Mode.Mode64)
     PointerType.int8PointerContext (TypeRef.allocated 0) TypeRef.mInt8Ty "i8*"
     PointerType.int8Pointer (IntegerType.ctor "i8" 8)
     (Value.ctor (some (TypeRef.allocated 0)) "p") rfl rfl rfl rfl,
   rfl, rfl⟩

/-! ## Register lookups -/

/-- Reading a map after an insertion. -/
theorem lookup_mapInsert {α β : Type} [BEq α] [LawfulBEq α] (m : List (α × β))
    (entry : α × β) (k : α) :
    (mapInsert m entry).lookup k =
      (m.lookup k).or (if k == entry.1 then some entry.2 else none) := by
  unfold mapInsert
  cases hk : k == entry.1 with
  | false =>
    split
    · simp
    · rw [List.lookup_append]
      simp [List.lookup, hk]
  | true =>
    have hke : k = entry.1 := by simpa using hk
    split
    · rename_i hsome
      rw [hke]
      cases hl : m.lookup entry.1 with
      | none => rw [hl] at hsome; simp at hsome
      | some b => simp
    · rw [List.lookup_append]
      simp [List.lookup, hk]

/-- Reading a map built by successive insertions: the first entry for a key
wins. -/
theorem lookup_foldl_mapInsert {α β : Type} [BEq α] [LawfulBEq α] (l : List (α × β)) :
    ∀ (acc : List (α × β)) (k : α),
      (l.foldl mapInsert acc).lookup k = (acc.lookup k).or (l.lookup k) := by
  induction l with
  | nil => intro acc k; simp
  | cons a t ih =>
    intro acc k
    simp only [List.foldl_cons]
    rw [ih, lookup_mapInsert]
    cases hk : k == a.1 with
    | false => simp [List.lookup, hk]
    | true =>
      cases hl : acc.lookup k with
      | none => simp [List.lookup, hk]
      | some b => simp

/-- Reading a map built from an initializer list is reading the list. -/
theorem lookup_mapOfList {α β : Type} [BEq α] [LawfulBEq α] (l : List (α × β)) (k : α) :
    (mapOfList l).lookup k = l.lookup k := by
  unfold mapOfList
  rw [lookup_foldl_mapInsert]
  simp

/-- Every entry of a map filled by reversed insertions was there before or is a
reversed item. -/
theorem mem_foldl_reversed {α β : Type} [BEq β] (l : List (α × β)) :
    ∀ (acc : List (β × α)) (q : β × α),
      q ∈ l.foldl (fun m Item => mapInsert m (Item.2, Item.1)) acc →
      q ∈ acc ∨ ∃ p ∈ l, q = (p.2, p.1) := by
  induction l with
  | nil => intro acc q h; left; simpa using h
  | cons a t ih =>
    intro acc q h
    simp only [List.foldl_cons] at h
    rcases ih _ q h with h1 | ⟨p, hp, hq⟩
    · unfold mapInsert at h1
      split at h1
      · left; exact h1
      · rcases List.mem_append.mp h1 with h2 | h2
        · left; exact h2
        · right
          exact ⟨a, List.mem_cons_self _ _, by simpa using h2⟩
    · right
      exact ⟨p, List.mem_cons_of_mem _ hp, hq⟩

/-- A key that is found is the key of an entry. -/
theorem mem_of_lookup_eq_some {α β : Type} [BEq α] [LawfulBEq α] (l : List (α × β)) (k : α)
    (b : β) (h : l.lookup k = some b) : (k, b) ∈ l := by
  obtain ⟨l1, l2, hl, _⟩ := List.lookup_eq_some_iff.mp h
  rw [hl]
  simp

/-- An entry of the map built from an initializer list has the key of an entry of
the list. -/
theorem mem_mapOfList {α β : Type} [BEq α] [LawfulBEq α] (l : List (α × β)) :
    ∀ (acc : List (α × β)) (q : α × β), q ∈ l.foldl mapInsert acc → q ∈ acc ∨ q ∈ l := by
  induction l with
  | nil => intro acc q h; left; simpa using h
  | cons a t ih =>
    intro acc q h
    simp only [List.foldl_cons] at h
    rcases ih _ q h with h1 | h1
    · unfold mapInsert at h1
      split at h1
      · left; exact h1
      · rcases List.mem_append.mp h1 with h2 | h2
        · left; exact h2
        · right
          have : q = a := by simpa using h2
          rw [this]
          exact List.mem_cons_self _ _
    · right
      exact List.mem_cons_of_mem _ h1

/-- The result of `getRegisterName` in closed form. -/
theorem TargetX86.getRegisterName_eq (K : EnumValues) (this : TargetX86) (k : Nat) :
    TargetX86.getRegisterName K this k =
      (((if this.mReg2Name.isEmpty then mapOfList (TargetX86.initializerList K)
          else this.mReg2Name).lookup k).getD "",
       { this with
         mReg2Name :=
           if this.mReg2Name.isEmpty then mapOfList (TargetX86.initializerList K)
           else this.mReg2Name }) := by
  unfold TargetX86.getRegisterName
  by_cases hE : this.mReg2Name.isEmpty = true
  · simp only [hE, if_true]
    cases List.lookup k (mapOfList (TargetX86.initializerList K)) <;> rfl
  · simp only [hE, if_false, Bool.false_eq_true]
    cases List.lookup k this.mReg2Name <;> rfl

/-- A map that is empty or already filled is filled after the test on
emptiness. -/
theorem TargetX86.filled (M m : List (Nat × String)) (h : m = [] ∨ m = M) :
    (if m.isEmpty then M else m) = M := by
  rcases h with h | h <;> subst h <;> simp

/-- On every reachable state `mReg2Name` is empty or holds the map of the
initializer list, and every key of `mName2Reg` is a name of the list. -/
theorem TargetX86.Reachable.inv {K : EnumValues} {this : TargetX86}
    (h : TargetX86.Reachable K this) :
    (this.mReg2Name = [] ∨ this.mReg2Name = mapOfList (TargetX86.initializerList K)) ∧
    (∀ q ∈ this.mName2Reg, ∃ p ∈ TargetX86.initializerList K, p.2 = q.1) := by
  induction h with
  | ctor => exact ⟨Or.inl rfl, by intro q hq; simp [TargetX86.ctor] at hq⟩
  | @getRegisterName t RegID _ ih =>
    rw [TargetX86.getRegisterName_eq]
    exact ⟨Or.inr (TargetX86.filled _ _ ih.1), ih.2⟩
  | @getRegisterID t RegName _ ih =>
    have hfill := TargetX86.filled (mapOfList (TargetX86.initializerList K)) _ ih.1
    unfold TargetX86.getRegisterID
    rw [TargetX86.getRegisterName_eq]
    by_cases hE : t.mName2Reg.isEmpty = true
    · have hres : ∀ (q : String × Nat),
          q ∈ (mapOfList (TargetX86.initializerList K)).foldl
            (fun m Item => mapInsert m (Item.2, Item.1)) t.mName2Reg →
          ∃ p ∈ TargetX86.initializerList K, p.2 = q.1 := by
        intro q hq
        rcases mem_foldl_reversed _ _ q hq with h1 | ⟨p, hp, hq1⟩
        · exact ih.2 q h1
        · rcases mem_mapOfList _ [] p hp with h2 | h2
          · simp at h2
          · exact ⟨p, h2, by rw [hq1]⟩
      simp only [hE, if_true, hfill]
      constructor
      · cases List.lookup RegName _ <;> exact Or.inr rfl
      · cases List.lookup RegName _ <;> exact hres
    · simp only [hE, if_false, Bool.false_eq_true]
      cases List.lookup RegName t.mName2Reg <;> exact ih

/-- The id returned by `getRegisterID` is read from `mName2Reg` as the call
leaves it. -/
theorem TargetX86.getRegisterID_fst (K : EnumValues) (this : TargetX86) (n : String) :
    (TargetX86.getRegisterID K this n).1 =
      ((TargetX86.getRegisterID K this n).2.mName2Reg.lookup n).getD K.X86_REG_INVALID := by
  unfold TargetX86.getRegisterID
  dsimp only
  generalize (if this.mName2Reg.isEmpty = true then _ else this) = t1
  cases hl : List.lookup n t1.mName2Reg <;> simp [hl]

/-- C18: on every reachable state of a `TargetX86`, `getRegisterName` returns the
empty string for an id that is not a key of the table and the table entry for
an id that is a key, and `getRegisterID` returns `X86_REG_INVALID` for a name
that is not a value of the table. -/
theorem TargetX86.lookup_miss_sentinel (K : EnumValues) (this : TargetX86)
    (RegID KeyID : Nat) (RegName entry : String)
    (hR : TargetX86.Reachable K this)
    (hmiss : ∀ p ∈ TargetX86.initializerList K, p.1 ≠ RegID)
    (hname : ∀ p ∈ TargetX86.initializerList K, p.2 ≠ RegName)
    (hkey : (TargetX86.initializerList K).lookup KeyID = some entry) :
    (TargetX86.getRegisterName K this RegID).1 = "" ∧
    (TargetX86.getRegisterID K this RegName).1 = K.X86_REG_INVALID ∧
    (TargetX86.getRegisterName K this KeyID).1 = entry := by
  have hinv := hR.inv
  have hfill := TargetX86.filled (mapOfList (TargetX86.initializerList K)) _ hinv.1
  refine ⟨?_, ?_, ?_⟩
  · rw [TargetX86.getRegisterName_eq, hfill, lookup_mapOfList]
    have hnone : (TargetX86.initializerList K).lookup RegID = none := by
      rw [List.lookup_eq_none_iff]
      intro p hp
      simpa using Ne.symm (hmiss p hp)
    rw [hnone]
    rfl
  · have hinv2 := (TargetX86.Reachable.getRegisterID RegName hR).inv.2
    have hnone : (TargetX86.getRegisterID K this RegName).2.mName2Reg.lookup RegName = none := by
      cases hl : (TargetX86.getRegisterID K this RegName).2.mName2Reg.lookup RegName with
      | none => rfl
      | some id =>
        obtain ⟨p, hp, hpn⟩ := hinv2 _ (mem_of_lookup_eq_some _ _ _ hl)
        exact (hname p hp hpn).elim
    rw [TargetX86.getRegisterID_fst, hnone]
    rfl
  · rw [TargetX86.getRegisterName_eq, hfill, lookup_mapOfList, hkey]
    rfl

set_option maxRecDepth 100000 in
/-- Witness for C18: a new `TargetX86` under the numbering by rows; 5000 is not a
key, `nope` is not a name, and 19 is the key of `eax`. -/
theorem TargetX86.lookup_miss_sentinel_witness :
    TargetX86.Reachable TargetX86.rowNumbering TargetX86.ctor ∧
    (∀ p ∈ TargetX86.initializerList TargetX86.rowNumbering, p.1 ≠ 5000) ∧
    (∀ p ∈ TargetX86.initializerList TargetX86.rowNumbering, p.2 ≠ "nope") ∧
    (TargetX86.initializerList TargetX86.rowNumbering).lookup 19 = some "eax" ∧
    ((TargetX86.getRegisterName TargetX86.rowNumbering TargetX86.ctor 5000).1 = "" ∧
      (TargetX86.getRegisterID TargetX86.rowNumbering TargetX86.ctor "nope").1 =
        TargetX86.rowNumbering.X86_REG_INVALID ∧
      (TargetX86.getRegisterName TargetX86.rowNumbering TargetX86.ctor 19).1 = "eax") :=
  ⟨TargetX86.Reachable.ctor, by decide, by decide, rfl,
   TargetX86.lookup_miss_sentinel TargetX86.rowNumbering TargetX86.ctor 5000 19 "nope" "eax"
     TargetX86.Reachable.ctor (by decide) (by decide) rfl⟩

/-! ## Idempotence of canonicalization -/

/-- C21: for a constant of width 1, 8, 16, 32 or 64, `setValue(v)` returns
normally and a following `setValue(getValue())` returns the very same constant:
the payload is unchanged, canonicalizing a canonical payload gives it back. -/
theorem ConstantInt.setValue_idempotent (C : Context) (this : ConstantInt) (v w : Nat)
    (hw : this.getBitWidth C = .ok w)
    (hsup : w = 1 ∨ w = 8 ∨ w = 16 ∨ w = 32 ∨ w = 64) :
    (this.setValue C v).toBool = true ∧
    Except.bind (this.setValue C v) (ConstantInt.setValueOfGetValue C) = this.setValue C v ∧
    Except.map ConstantInt.getValue
        (Except.bind (this.setValue C v) (ConstantInt.setValueOfGetValue C)) =
      Except.map ConstantInt.getValue (this.setValue C v) := by
  have h1 := ConstantInt.setValue_eq C this v w hw hsup
  have hw1 : ConstantInt.getBitWidth C
      { this with mVal := if w = 1 then (if v = 0 then 0 else 1) else v % 2 ^ w } = .ok w := by
    rw [← hw]
    exact ConstantInt.getBitWidth_congr C _ _ rfl
  have h2 := ConstantInt.setValue_eq C
    { this with mVal := if w = 1 then (if v = 0 then 0 else 1) else v % 2 ^ w }
    (if w = 1 then (if v = 0 then 0 else 1) else v % 2 ^ w) w hw1 hsup
  have hcanon : (if w = 1 then
        (if (if w = 1 then (if v = 0 then 0 else 1) else v % 2 ^ w) = 0 then 0 else 1)
      else (if w = 1 then (if v = 0 then 0 else 1) else v % 2 ^ w) % 2 ^ w) =
      (if w = 1 then (if v = 0 then 0 else 1) else v % 2 ^ w) := by
    by_cases hone : w = 1
    · by_cases hv : v = 0 <;> simp [hone, hv]
    · simp [hone]
  have hbind : Except.bind (this.setValue C v) (ConstantInt.setValueOfGetValue C) =
      this.setValue C v := by
    rw [h1]
    simp only [Except.bind, ConstantInt.setValueOfGetValue, ConstantInt.getValue]
    rw [h2, hcanon]
  refine ⟨?_, hbind, ?_⟩
  · rw [h1]; rfl
  · rw [hbind]

/-- Witness for C21: an 8-bit constant set to 300 holds 44 and keeps 44. -/
theorem ConstantInt.setValue_idempotent_witness :
    ConstantInt.getBitWidth (Context.create Mode.Mode64)
      { toValue := Value.ctor (some TypeRef.mInt8Ty) "c", mVal := 0 } = .ok 8 ∧
    (8 = 1 ∨ 8 = 8 ∨ 8 = 16 ∨ 8 = 32 ∨ 8 = 64) ∧
    ((ConstantInt.setValue (Context.create Mode.Mode64)
        { toValue := Value.ctor (some TypeRef.mInt8Ty) "c", mVal := 0 } 300).toBool = true ∧
      Except.bind
        (ConstantInt.setValue (Context.create Mode.Mode64)
          { toValue := Value.ctor (some TypeRef.mInt8Ty) "c", mVal := 0 } 300)
        (ConstantInt.setValueOfGetValue (Context.create Mode.Mode64)) =
        ConstantInt.setValue (Context.create Mode.Mode64)
          { toValue := Value.ctor (some TypeRef.mInt8Ty) "c", mVal := 0 } 300 ∧
      Except.map ConstantInt.getValue
        (Except.bind
          (ConstantInt.setValue (Context.create Mode.Mode64)
            { toValue := Value.ctor (some TypeRef.mInt8Ty) "c", mVal := 0 } 300)
          (ConstantInt.setValueOfGetValue (Context.create Mode.Mode64))) =
        Except.map ConstantInt.getValue
          (ConstantInt.setValue (Context.create Mode.Mode64)
            { toValue := Value.ctor (some TypeRef.mInt8Ty) "c", mVal := 0 } 300)) ∧
    Except.map ConstantInt.getValue
      (ConstantInt.setValue (Context.create Mode.Mode64)
        { toValue := Value.ctor (some TypeRef.mInt8Ty) "c", mVal := 0 } 300) = .ok 44 :=
  ⟨rfl, by norm_num,
   ConstantInt.setValue_idempotent (Context.create Mode.Mode64)
     { toValue := Value.ctor (some TypeRef.mInt8Ty) "c", mVal := 0 } 300 8 rfl (by norm_num),
   rfl⟩

/-! ## The name of a constant -/

/-- Whenever `setValue` returns, the `Value` part of the constant is the one
before the call. -/
theorem ConstantInt.setValue_toValue (C : Context) (this c : ConstantInt) (v : Nat)
    (h : this.setValue C v = .ok c) : c.toValue = this.toValue := by
  unfold ConstantInt.setValue at h
  cases hbw : this.getBitWidth C with
  | error e => rw [hbw] at h; simp at h
  | ok w =>
    rw [hbw] at h
    simp only [uir_unreachable] at h
    split_ifs at h <;> first | (simp at h; done) | (simp only [Except.ok.injEq] at h; rw [← h])

/-- C22: the name of a `ConstantInt` is the decimal rendering of the raw
constructor argument and `setValue` does not update it.  For a type of
width 1, 8, 16, 32 or 64 the constant is constructed and `getName()` is the
decimal rendering of `v`, right after construction and after `setValue(v1)`; for
a type of any width, whenever the constructor and `setValue` return, the name is
that rendering. -/
theorem ConstantInt.getName_raw (C : Context) (T : TypeRef) (obj : IRType) (v v1 g w : Nat)
    (hT : C.typeAt T = some obj) (hbits : obj.getTypeBits = w) (_hv : v < 2 ^ 64) :
    ((w = 1 ∨ w = 8 ∨ w = 16 ∨ w = 32 ∨ w = 64) →
      Except.map (fun c : ConstantInt => c.getName) (ConstantInt.ctor C (some T) v g) =
        .ok (toString v) ∧
      Except.map (fun c : ConstantInt => c.getName)
          (Except.bind (ConstantInt.ctor C (some T) v g) (fun c => c.setValue C v1)) =
        .ok (toString v)) ∧
    (∀ c : ConstantInt, ConstantInt.ctor C (some T) v g = .ok c →
      c.getName = toString v ∧
      ∀ c1 : ConstantInt, c.setValue C v1 = .ok c1 → c1.getName = toString v) ∧
    toString v = (Nat.toDigits 10 v).asString := by
  have hgen : ∀ c : ConstantInt, ConstantInt.ctor C (some T) v g = .ok c →
      c.getName = toString v ∧
      ∀ c1 : ConstantInt, c.setValue C v1 = .ok c1 → c1.getName = toString v := by
    intro c hc
    have h0 := ConstantInt.setValue_toValue C _ c v hc
    have hname : c.getName = toString v := by
      simp only [Value.getName, h0, Constant.ctor, Value.ctor]
    refine ⟨hname, ?_⟩
    intro c1 hc1
    have h1 := ConstantInt.setValue_toValue C c c1 v1 hc1
    simp only [Value.getName, h1]
    exact hname
  refine ⟨?_, hgen, rfl⟩
  intro hsup
  have hbase : ConstantInt.getBitWidth C
      { toValue := Constant.ctor (some T) (toString v), mVal := g } = .ok w := by
    simp only [ConstantInt.getBitWidth, Value.getValueBits, Constant.ctor, Value.ctor, hT, hbits]
  have hctor := ConstantInt.setValue_eq C _ v w hbase hsup
  have hw1 : ConstantInt.getBitWidth C
      { ({ toValue := Constant.ctor (some T) (toString v), mVal := g } : ConstantInt) with
        mVal := if w = 1 then (if v = 0 then 0 else 1) else v % 2 ^ w } = .ok w := by
    rw [← hbase]
    exact ConstantInt.getBitWidth_congr C _ _ rfl
  have hset := ConstantInt.setValue_eq C _ v1 w hw1 hsup
  unfold ConstantInt.ctor
  rw [hctor]
  refine ⟨rfl, ?_⟩
  simp only [Except.bind]
  rw [hset]
  rfl

/-- Witness for C22: an 8-bit constant built from 300 and then set to 7 is named
`300` throughout, while its payload after construction is 44. -/
theorem ConstantInt.getName_raw_witness :
    (Context.create Mode.Mode64).typeAt TypeRef.mInt8Ty = some (IntegerType.ctor "i8" 8) ∧
    (IntegerType.ctor "i8" 8).getTypeBits = 8 ∧ 300 < 2 ^ 64 ∧
    (((8 = 1 ∨ 8 = 8 ∨ 8 = 16 ∨ 8 = 32 ∨ 8 = 64) →
        Except.map (fun c : ConstantInt => c.getName)
            (ConstantInt.ctor (Context.create Mode.Mode64) (some TypeRef.mInt8Ty) 300 0) =
          .ok (toString 300) ∧
        Except.map (fun c : ConstantInt => c.getName)
            (Except.bind
              (ConstantInt.ctor (Context.create Mode.Mode64) (some TypeRef.mInt8Ty) 300 0)
              (fun c => c.setValue (Context.create Mode.Mode64) 7)) =
          .ok (toString 300)) ∧
      (∀ c : ConstantInt,
        ConstantInt.ctor (Context.create Mode.Mode64) (some TypeRef.mInt8Ty) 300 0 = .ok c →
        c.getName = toString 300 ∧
        ∀ c1 : ConstantInt, c.setValue (Context.create Mode.Mode64) 7 = .ok c1 →
          c1.getName = toString 300) ∧
      toString 300 = (Nat.toDigits 10 300).asString) ∧
    toString 300 = "300" ∧
    Except.map ConstantInt.getValue
      (ConstantInt.ctor (Context.create Mode.Mode64) (some TypeRef.mInt8Ty) 300 0) = .ok 44 :=
  ⟨rfl, rfl, by norm_num,
   ConstantInt.getName_raw (Context.create Mode.Mode64) TypeRef.mInt8Ty
     (IntegerType.ctor "i8" 8) 300 7 0 8 rfl rfl (by norm_num),
   by decide, rfl⟩

/-! ## Byte size -/

/-- C24: for a value whose type is a live type object, `getValueSize()` is the
type's `getTypeSize()`, both being `getValueBits()` divided by 8 and rounded down:
eight times the size is at most the bit-width, with equality exactly when the
bit-width is a multiple of 8. -/
theorem Value.getValueSize_floor (C : Context) (V : Value) (Ty : TypeRef) (T : IRType)
    (hV : V.getType = some Ty) (hT : C.typeAt Ty = some T) :
    V.getValueSize C = .ok T.getTypeSize ∧
    V.getValueBits C = .ok T.getTypeBits ∧
    T.getTypeSize = T.getTypeBits / 8 ∧
    8 * T.getTypeSize ≤ T.getTypeBits ∧
    (8 * T.getTypeSize = T.getTypeBits ↔ 8 ∣ T.getTypeBits) := by
  have hV1 : V.mType = some Ty := hV
  refine ⟨?_, ?_, rfl, ?_, ?_⟩
  · simp only [Value.getValueSize, hV1, hT]
    rfl
  · simp only [Value.getValueBits, hV1, hT]
  · simp only [IRType.getTypeSize, IRType.getTypeBits]
    omega
  · simp only [IRType.getTypeSize, IRType.getTypeBits]
    omega

/-- Witness for C24: a 1-bit value has size 0. -/
theorem Value.getValueSize_floor_witness :
    (Value.ctor (some TypeRef.mInt1Ty) "b").getType = some TypeRef.mInt1Ty ∧
    (Context.create Mode.Mode64).typeAt TypeRef.mInt1Ty = some (IntegerType.ctor "i1" 1) ∧
    ((Value.ctor (some TypeRef.mInt1Ty) "b").getValueSize (Context.create Mode.Mode64) =
        .ok (IntegerType.ctor "i1" 1).getTypeSize ∧
      (Value.ctor (some TypeRef.mInt1Ty) "b").getValueBits (Context.create Mode.Mode64) =
        .ok (IntegerType.ctor "i1" 1).getTypeBits ∧
      (IntegerType.ctor "i1" 1).getTypeSize = (IntegerType.ctor "i1" 1).getTypeBits / 8 ∧
      8 * (IntegerType.ctor "i1" 1).getTypeSize ≤ (IntegerType.ctor "i1" 1).getTypeBits ∧
      (8 * (IntegerType.ctor "i1" 1).getTypeSize = (IntegerType.ctor "i1" 1).getTypeBits ↔
        8 ∣ (IntegerType.ctor "i1" 1).getTypeBits)) ∧
    (IntegerType.ctor "i1" 1).getTypeSize = 0 ∧ (IntegerType.ctor "i1" 1).getTypeBits = 1 :=
  ⟨rfl, rfl,
   Value.getValueSize_floor (Context.create Mode.Mode64) (Value.ctor (some TypeRef.mInt1Ty) "b")
     TypeRef.mInt1Ty (IntegerType.ctor "i1" 1) rfl rfl,
   rfl, rfl⟩

/-! ## The register round trip -/

set_option maxRecDepth 1000000 in
set_option maxHeartbeats 4000000 in
/-- The register names of the table have pairwise different codes. -/
theorem TargetX86.registerRows_codes_nodup :
    ((TargetX86.registerRows.map Prod.snd).map TargetX86.nameCode).Nodup := by
  decide

/-- The register names of the table are pairwise distinct. -/
theorem TargetX86.registerRows_names_nodup :
    (TargetX86.registerRows.map Prod.snd).Nodup :=
  List.Nodup.of_map TargetX86.nameCode TargetX86.registerRows_codes_nodup

/-- The second components of a zip are taken, in order, from the second list. -/
theorem zip_snd_sublist {α β : Type} (l1 : List α) :
    ∀ l2 : List β, ((l1.zip l2).map Prod.snd).Sublist l2 := by
  induction l1 with
  | nil => intro l2; simp
  | cons a t ih =>
    intro l2
    cases l2 with
    | nil => simp
    | cons b u =>
      simp only [List.zip_cons_cons, List.map_cons]
      exact (ih u).cons₂ b

/-- A map filled by insertions keeps its entries in the order they were offered. -/
theorem foldl_mapInsert_sublist {α β : Type} [BEq α] (l : List (α × β)) :
    ∀ acc : List (α × β), (l.foldl mapInsert acc).Sublist (acc ++ l) := by
  induction l with
  | nil => intro acc; simp
  | cons a t ih =>
    intro acc
    simp only [List.foldl_cons]
    have h1 : (mapInsert acc a).Sublist (acc ++ [a]) := by
      unfold mapInsert
      split
      · exact List.sublist_append_left acc [a]
      · exact List.Sublist.refl _
    have h2 := List.Sublist.append h1 (List.Sublist.refl t)
    have h3 : acc ++ [a] ++ t = acc ++ a :: t := by simp
    rw [h3] at h2
    exact (ih _).trans h2

/-- The names held by `mReg2Name`, once filled, are pairwise distinct. -/
theorem TargetX86.map_names_nodup (K : EnumValues) :
    ((mapOfList (TargetX86.initializerList K)).map Prod.snd).Nodup := by
  have h1 : (mapOfList (TargetX86.initializerList K)).Sublist (TargetX86.initializerList K) := by
    have := foldl_mapInsert_sublist (TargetX86.initializerList K) []
    simpa [mapOfList] using this
  have h2 := zip_snd_sublist K.keys (TargetX86.registerRows.map Prod.snd)
  exact ((h1.map Prod.snd).trans h2).nodup TargetX86.registerRows_names_nodup

/-- In a list with pairwise distinct keys every entry is found under its key. -/
theorem lookup_of_mem_of_nodup {α β : Type} [BEq α] [LawfulBEq α] (l : List (α × β))
    (k : α) (v : β) (hn : (l.map Prod.fst).Nodup) (hm : (k, v) ∈ l) :
    l.lookup k = some v := by
  induction l with
  | nil => simp at hm
  | cons a t ih =>
    obtain ⟨a1, a2⟩ := a
    simp only [List.map_cons, List.nodup_cons] at hn
    rcases List.mem_cons.mp hm with h | h
    · simp only [Prod.mk.injEq] at h
      rw [← h.1, ← h.2]
      simp [List.lookup]
    · have hne : ¬ k = a1 := by
        intro e
        apply hn.1
        rw [← e]
        exact List.mem_map.mpr ⟨(k, v), h, rfl⟩
      have hb : (k == a1) = false := by simpa using hne
      simp only [List.lookup, hb]
      exact ih hn.2 h

/-- Reading the reversed map: a name of the filled `mReg2Name` is mapped to its
id. -/
theorem TargetX86.lookup_reversed (K : EnumValues) (id : Nat) (n : String)
    (hkey : (TargetX86.initializerList K).lookup id = some n) :
    ((mapOfList (TargetX86.initializerList K)).foldl
        (fun m Item => mapInsert m (Item.2, Item.1)) ([] : List (String × Nat))).lookup n =
      some id := by
  have hmem : (id, n) ∈ mapOfList (TargetX86.initializerList K) := by
    apply mem_of_lookup_eq_some
    rw [lookup_mapOfList]
    exact hkey
  have hfold := List.foldl_map (fun p : Nat × String => (p.2, p.1)) mapInsert
    (mapOfList (TargetX86.initializerList K)) ([] : List (String × Nat))
  rw [← hfold, lookup_foldl_mapInsert]
  simp only [List.lookup_nil, Option.none_or]
  apply lookup_of_mem_of_nodup
  · have hk : ((mapOfList (TargetX86.initializerList K)).map
        (fun p : Nat × String => (p.2, p.1))).map Prod.fst =
        (mapOfList (TargetX86.initializerList K)).map Prod.snd := by
      simp [List.map_map, Function.comp_def]
    rw [hk]
    exact TargetX86.map_names_nodup K
  · exact List.mem_map.mpr ⟨(id, n), hmem, rfl⟩

/-- The state `getRegisterID` leaves behind, in closed form. -/
theorem TargetX86.getRegisterID_snd (K : EnumValues) (this : TargetX86) (n : String) :
    (TargetX86.getRegisterID K this n).2 =
      (if this.mName2Reg.isEmpty then
        { (TargetX86.getRegisterName K this K.X86_REG_EAX).2 with
          mName2Reg :=
            (TargetX86.getRegisterName K this K.X86_REG_EAX).2.mReg2Name.foldl
              (fun m Item => mapInsert m (Item.2, Item.1))
              (TargetX86.getRegisterName K this K.X86_REG_EAX).2.mName2Reg }
       else this) := by
  unfold TargetX86.getRegisterID
  dsimp only
  generalize (if this.mName2Reg.isEmpty = true then _ else this) = t1
  cases hl : List.lookup n t1.mName2Reg <;> rfl

/-- After `getRegisterID`, called on a state where each map is empty or filled,
`mName2Reg` is the reversed map of the initializer list. -/
theorem TargetX86.getRegisterID_mName2Reg (K : EnumValues) (this : TargetX86) (n : String)
    (h1 : this.mReg2Name = [] ∨ this.mReg2Name = mapOfList (TargetX86.initializerList K))
    (h3 : this.mName2Reg = [] ∨
      this.mName2Reg = (mapOfList (TargetX86.initializerList K)).foldl
        (fun m Item => mapInsert m (Item.2, Item.1)) ([] : List (String × Nat))) :
    (TargetX86.getRegisterID K this n).2.mName2Reg =
      (mapOfList (TargetX86.initializerList K)).foldl
        (fun m Item => mapInsert m (Item.2, Item.1)) ([] : List (String × Nat)) := by
  have hfill := TargetX86.filled (mapOfList (TargetX86.initializerList K)) _ h1
  rw [TargetX86.getRegisterID_snd, TargetX86.getRegisterName_eq]
  by_cases hE : this.mName2Reg.isEmpty = true
  · have hnil : this.mName2Reg = [] := List.isEmpty_iff.mp hE
    simp only [hfill, hnil, List.isEmpty_nil, if_true]
  · simp only [hE, if_false, Bool.false_eq_true]
    rcases h3 with h | h
    · rw [h] at hE
      simp at hE
    · exact h

/-- On every reachable state `mName2Reg` is empty or holds the reversed map of
the initializer list. -/
theorem TargetX86.Reachable.inv_names {K : EnumValues} {this : TargetX86}
    (h : TargetX86.Reachable K this) :
    this.mName2Reg = [] ∨
      this.mName2Reg = (mapOfList (TargetX86.initializerList K)).foldl
        (fun m Item => mapInsert m (Item.2, Item.1)) ([] : List (String × Nat)) := by
  induction h with
  | ctor => exact Or.inl rfl
  | @getRegisterName t RegID _ ih =>
    rw [TargetX86.getRegisterName_eq]
    exact ih
  | @getRegisterID t RegName ht ih =>
    exact Or.inr (TargetX86.getRegisterID_mName2Reg K t RegName ht.inv.1 ih)

/-- C23: for every id that is a key of the table, the name `getRegisterName`
returns for it, on any reachable state of a `TargetX86`, is mapped back to the
id by `getRegisterID`, on any reachable state: in particular right after that
`getRegisterName` call, and also when `getRegisterID` is the first call on a new
object. -/
theorem TargetX86.register_round_trip (K : EnumValues) (s1 s2 : TargetX86) (id : Nat)
    (n : String) (h1 : TargetX86.Reachable K s1) (h2 : TargetX86.Reachable K s2)
    (hkey : (TargetX86.initializerList K).lookup id = some n) :
    (TargetX86.getRegisterName K s1 id).1 = n ∧
    (TargetX86.getRegisterID K s2 (TargetX86.getRegisterName K s1 id).1).1 = id ∧
    (TargetX86.getRegisterID K (TargetX86.getRegisterName K s1 id).2
      (TargetX86.getRegisterName K s1 id).1).1 = id ∧
    (TargetX86.getRegisterID K TargetX86.ctor (TargetX86.getRegisterName K s1 id).1).1 = id := by
  have hname : (TargetX86.getRegisterName K s1 id).1 = n := by
    have hfill := TargetX86.filled (mapOfList (TargetX86.initializerList K)) _ h1.inv.1
    rw [TargetX86.getRegisterName_eq, hfill, lookup_mapOfList, hkey]
    rfl
  have hid : ∀ s : TargetX86, TargetX86.Reachable K s →
      (TargetX86.getRegisterID K s n).1 = id := by
    intro s hs
    rw [TargetX86.getRegisterID_fst,
      TargetX86.getRegisterID_mName2Reg K s n hs.inv.1 hs.inv_names,
      TargetX86.lookup_reversed K id n hkey]
    rfl
  rw [hname]
  exact ⟨rfl, hid s2 h2, hid _ (TargetX86.Reachable.getRegisterName id h1),
    hid _ TargetX86.Reachable.ctor⟩

set_option maxRecDepth 100000 in
/-- Witness for C23: under the numbering by rows, 19 is the key of `eax`, and
`eax` is mapped back to 19. -/
theorem TargetX86.register_round_trip_witness :
    TargetX86.Reachable TargetX86.rowNumbering TargetX86.ctor ∧
    TargetX86.Reachable TargetX86.rowNumbering TargetX86.ctor ∧
    (TargetX86.initializerList TargetX86.rowNumbering).lookup 19 = some "eax" ∧
    ((TargetX86.getRegisterName TargetX86.rowNumbering TargetX86.ctor 19).1 = "eax" ∧
      (TargetX86.getRegisterID TargetX86.rowNumbering TargetX86.ctor
        (TargetX86.getRegisterName TargetX86.rowNumbering TargetX86.ctor 19).1).1 = 19 ∧
      (TargetX86.getRegisterID TargetX86.rowNumbering
        (TargetX86.getRegisterName TargetX86.rowNumbering TargetX86.ctor 19).2
        (TargetX86.getRegisterName TargetX86.rowNumbering TargetX86.ctor 19).1).1 = 19 ∧
      (TargetX86.getRegisterID TargetX86.rowNumbering TargetX86.ctor
        (TargetX86.getRegisterName TargetX86.rowNumbering TargetX86.ctor 19).1).1 = 19) :=
  ⟨TargetX86.Reachable.ctor, TargetX86.Reachable.ctor, rfl,
   TargetX86.register_round_trip TargetX86.rowNumbering TargetX86.ctor TargetX86.ctor 19 "eax"
     TargetX86.Reachable.ctor TargetX86.Reachable.ctor rfl⟩

end uir
